import Mathlib

/-!
Verification development for the remove-duplicate-materials add-on.

The source (src/remove_duplicate_materials.py) is shallowly embedded:
materials, shader nodes and node trees become Lean structures; Blender
object identity is modelled by a numeric id field; Python floats become
rationals; duck-typed optional attributes become Option fields.
-/

namespace RDM

/-- Numeric tolerance used throughout compare_material_properties. -/
def tol : ℚ := mkRat 1 1000

/-- Subtraction of rationals written through mkRat so that it evaluates
inside the kernel; proved equal to ordinary subtraction below. -/
def qsub (x y : ℚ) : ℚ := mkRat (x.num * y.den - y.num * x.den) (x.den * y.den)

/-- Absolute value of a rational written through Rat.blt so that it
evaluates inside the kernel; proved equal to the lattice one below. -/
def qabs (x : ℚ) : ℚ := if Rat.blt x 0 then mkRat (-x.num) x.den else x

/-- One scalar comparison from the source: true when the two values differ
by strictly more than the tolerance, mirroring abs(a - b) > 0.001. -/
def qFar (x y : ℚ) : Bool := Rat.blt tol (qabs (qsub x y))

/-- Element-wise diffuse-color comparison from the source: true when some
zipped pair of components differs beyond the tolerance. -/
def colorFar (c1 c2 : List ℚ) : Bool := (c1.zip c2).any (fun p => qFar p.1 p.2)

/-- Tolerance check applied only when both optional attributes are present,
mirroring the hasattr(mat1, x) and hasattr(mat2, x) guard. -/
def optBothFar : Option ℚ → Option ℚ → Bool
  | some x, some y => qFar x y
  | _, _ => false

/-- Presence mismatch of an optional attribute, mirroring
hasattr(mat1, x) != hasattr(mat2, x). -/
def presenceMismatch : Option ℚ → Option ℚ → Bool
  | some _, none => true
  | none, some _ => true
  | _, _ => false

/-- A node input socket; default_value is present only when exposed. -/
structure InputSocket where
  default_value : Option (List ℚ)
  deriving DecidableEq

/-- A shader node, with the attributes the source reads. -/
structure Node where
  type : String
  location : ℚ × ℚ
  name : String
  color : Option (List ℚ)
  hide : Option Bool
  inputs : List InputSocket
  image : Option Nat
  interpolation : Option String
  deriving DecidableEq

/-- A directed link between node sockets; socket endpoints are stored as
the endpoint node together with the socket name. -/
structure Link where
  from_node : Node
  from_socket : String
  to_node : Node
  to_socket : String
  deriving DecidableEq

/-- A node tree: nodes plus links. -/
structure NodeTree where
  nodes : List Node
  links : List Link
  deriving DecidableEq

/-- A material. The id field models Blender object identity: two handles
denote the same datablock exactly when their ids agree. -/
structure Material where
  id : Nat
  use_nodes : Bool
  blend_method : String
  alpha_threshold : ℚ
  show_transparent_back : Bool
  use_backface_culling : Bool
  diffuse_color : List ℚ
  metallic : Option ℚ
  specular : Option ℚ
  roughness : Option ℚ
  node_tree : Option NodeTree
  deriving DecidableEq

/-- The structural identity key of a node: the (type, location, name)
triple used by compare_node_trees to match nodes across trees. -/
def nodeKey (n : Node) : String × (ℚ × ℚ) × String := (n.type, n.location, n.name)

/-- Embedding of compare_node_properties from the source. -/
def compare_node_properties (n1 n2 : Node) : Bool :=
  if n1.type ≠ n2.type then false
  else if (match n1.color, n2.color with
    | some c1, some c2 => decide (c1 ≠ c2)
    | _, _ => false) then false
  else if (match n1.hide, n2.hide with
    | some h1, some h2 => decide (h1 ≠ h2)
    | _, _ => false) then false
  else if n1.type = "BSDF_PRINCIPLED" then
    (n1.inputs.zip n2.inputs).all (fun p =>
      match p.1.default_value, p.2.default_value with
      | some v1, some v2 => decide (v1 = v2)
      | _, _ => true)
  else if n1.type = "TEX_IMAGE" then
    (match n1.image, n2.image with
      | some i1, some i2 => decide (i1 = i2)
      | _, _ => true) &&
    (match n1.interpolation, n2.interpolation with
      | some s1, some s2 => decide (s1 = s2)
      | _, _ => true)
  else true

/-- True when two nodes of the list share the same structural key, the
condition under which compare_node_trees fails closed. -/
def hasDupKey : List Node → Bool
  | [] => false
  | n :: rest => rest.any (fun m => decide (nodeKey m = nodeKey n)) || hasDupKey rest

/-- First node of the list carrying the given structural key, mirroring
the dictionary lookup nodes2[key]. -/
def findByKey (ns : List Node) (k : String × (ℚ × ℚ) × String) : Option Node :=
  ns.find? (fun n => decide (nodeKey n = k))

/-- The link descriptor the SOURCE builds: endpoint node type, endpoint
node location and socket name. The node name is not part of it. -/
def linkKey (l : Link) : (String × (ℚ × ℚ) × String) × (String × (ℚ × ℚ) × String) :=
  ((l.from_node.type, l.from_node.location, l.from_socket),
   (l.to_node.type, l.to_node.location, l.to_socket))

/-- All link descriptors of a tree, as built by compare_node_trees. -/
def linkKeys (t : NodeTree) :
    List ((String × (ℚ × ℚ) × String) × (String × (ℚ × ℚ) × String)) :=
  t.links.map linkKey

/-- The link descriptor as the SPEC words it: the full node key (type,
position, name) paired with the socket name, at both endpoints. Written
from the spec sentence, for comparison against linkKey from the source. -/
def linkDescriptorSpec (l : Link) :
    ((String × (ℚ × ℚ) × String) × String) × ((String × (ℚ × ℚ) × String) × String) :=
  ((nodeKey l.from_node, l.from_socket), (nodeKey l.to_node, l.to_socket))

/-- All spec-worded link descriptors of a tree. -/
def linkDescriptorsSpec (t : NodeTree) :
    List (((String × (ℚ × ℚ) × String) × String) × ((String × (ℚ × ℚ) × String) × String)) :=
  t.links.map linkDescriptorSpec

instance :
    DecidableEq (((String × (ℚ × ℚ) × String) × String) × ((String × (ℚ × ℚ) × String) × String)) :=
  fun a b => instDecidableEqProd a b

/-- Extensional equality of two lists viewed as sets, mirroring equality
of the two Python sets of link descriptors. -/
def sameElems {α : Type} [DecidableEq α] (l1 l2 : List α) : Bool :=
  decide (∀ x ∈ l1, x ∈ l2) && decide (∀ x ∈ l2, x ∈ l1)

/-- Embedding of compare_node_trees from the source. -/
def compare_node_trees : Option NodeTree → Option NodeTree → Bool
  | none, none => true
  | none, some _ => false
  | some _, none => false
  | some t1, some t2 =>
    if t1.nodes.length ≠ t2.nodes.length then false
    else if t1.links.length ≠ t2.links.length then false
    else if hasDupKey t1.nodes || hasDupKey t2.nodes then false
    else if t1.nodes.all (fun n1 =>
        match findByKey t2.nodes (nodeKey n1) with
        | none => false
        | some n2 => compare_node_properties n1 n2) then
      sameElems (linkKeys t1) (linkKeys t2)
    else false

/-- The simplified node-tree check inlined in compare_material_properties:
when both trees are present, equal node count and equal link count; when
one is missing, the result of comparing the two references. -/
def nodeTreeSubCheck : Option NodeTree → Option NodeTree → Bool
  | none, none => true
  | none, some _ => false
  | some _, none => false
  | some t1, some t2 =>
    decide (t1.nodes.length = t2.nodes.length) && decide (t1.links.length = t2.links.length)

/-- Embedding of compare_material_properties from the source. -/
def compare_material_properties : Option Material → Option Material → Bool
  | none, _ => false
  | _, none => false
  | some m1, some m2 =>
    if m1.id = m2.id then false
    else if m1.use_nodes ≠ m2.use_nodes then false
    else if m1.blend_method ≠ m2.blend_method then false
    else if qFar m1.alpha_threshold m2.alpha_threshold then false
    else if m1.show_transparent_back ≠ m2.show_transparent_back then false
    else if m1.use_backface_culling ≠ m2.use_backface_culling then false
    else if m1.diffuse_color.length ≠ m2.diffuse_color.length then false
    else if colorFar m1.diffuse_color m2.diffuse_color then false
    else if optBothFar m1.metallic m2.metallic then false
    else if optBothFar m1.specular m2.specular then false
    else if presenceMismatch m1.specular m2.specular then false
    else if optBothFar m1.roughness m2.roughness then false
    else if m1.use_nodes && m2.use_nodes then nodeTreeSubCheck m1.node_tree m2.node_tree
    else if m1.use_nodes ≠ m2.use_nodes then false
    else true

/-- Inner loop of find_duplicate_materials: scan the tail for unprocessed
duplicates of m1, accumulating them and marking them processed. Returns
the duplicate list and the updated processed set. -/
def collectDups (m1 : Material) : List Material → List Nat → List Material × List Nat
  | [], processed => ([], processed)
  | m2 :: rest, processed =>
    if m2.id ∈ processed then collectDups m1 rest processed
    else if compare_material_properties (some m1) (some m2) then
      let res := collectDups m1 rest (m2.id :: processed)
      (m2 :: res.1, res.2)
    else collectDups m1 rest processed

/-- Outer loop of find_duplicate_materials, threading the processed set. -/
def findDupsAux : List Material → List Nat → List (Material × List Material)
  | [], _ => []
  | m1 :: rest, processed =>
    if m1.id ∈ processed then findDupsAux rest processed
    else
      let res := collectDups m1 rest processed
      if res.1.isEmpty then findDupsAux rest res.2
      else (m1, res.1) :: findDupsAux rest (m1.id :: res.2)

/-- Embedding of find_duplicate_materials from the source, as an ordered
association list mirroring Python dict insertion order. -/
def find_duplicate_materials (materials : List Material) : List (Material × List Material) :=
  findDupsAux materials []

/-- All ids occurring in some duplicate list of a grouping result. -/
def dupIds : List (Material × List Material) → List Nat
  | [] => []
  | g :: r => g.2.map (fun d => d.id) ++ dupIds r

/-- First slot index whose (non-empty) entry is the given material, by
identity; mirrors the enumerate loop with mat == original in execute. -/
def findSlotIdx : List (Option Material) → Material → Option Nat
  | [], _ => none
  | none :: rest, m => (findSlotIdx rest m).map (fun i => i + 1)
  | some s :: rest, m =>
    if s.id = m.id then some 0 else (findSlotIdx rest m).map (fun i => i + 1)

/-- Pairs (duplicate slot index, original slot index) contributed by one
equivalence class, skipping duplicates not found in the slot list. -/
def groupPairs (slots : List (Option Material)) (oi : Nat) : List Material → List (Nat × Nat)
  | [] => []
  | d :: ds =>
    match findSlotIdx slots d with
    | none => groupPairs slots oi ds
    | some di => (di, oi) :: groupPairs slots oi ds

/-- The material_mapping built by execute, as an ordered association list;
a class whose original is not found in the slot list is skipped whole. -/
def buildMapping (slots : List (Option Material)) : List (Material × List Material) → List (Nat × Nat)
  | [] => []
  | g :: r =>
    (match findSlotIdx slots g.1 with
     | none => []
     | some oi => groupPairs slots oi g.2) ++ buildMapping slots r

/-- Association-list lookup mirroring material_mapping[face.material_index]. -/
def lookupIdx : List (Nat × Nat) → Nat → Option Nat
  | [], _ => none
  | p :: rest, fi => if p.1 = fi then some p.2 else lookupIdx rest fi

/-- The face-index rewrite of execute: indices that are mapping keys are
redirected to the original index, others are untouched. -/
def remapFace (pairs : List (Nat × Nat)) (fi : Nat) : Nat :=
  match lookupIdx pairs fi with
  | some oi => oi
  | none => fi

/-- Descending sort, mirroring sorted(materials_to_remove, reverse=True). -/
def sortDesc (l : List Nat) : List Nat := l.insertionSort (fun a b => b ≤ a)

/-- Modelled from the spec: the host slot-removal primitive
mesh.materials.pop is not part of the source; per the spec the compaction
removes the slot at the given index and adjusts all positional references
that shift as a result, so every face index greater than the removed index
decrements by one. removeSlots runs the removal loop of execute over the
index positions in the given order, skipping indices out of range and
counting the removals. -/
def removeSlots : List (Option Material) → List Nat → List Nat → List (Option Material) × List Nat × Nat
  | slots, faces, [] => (slots, faces, 0)
  | slots, faces, idx :: rest =>
    if idx < slots.length then
      let res := removeSlots (slots.eraseIdx idx)
        (faces.map (fun fi => if idx < fi then fi - 1 else fi)) rest
      (res.1, res.2.1, res.2.2 + 1)
    else removeSlots slots faces rest

/-- Net positional adjustment of a face reference after removing the slot
indices rs: the reference drops by the number of removed indices below it. -/
def adjust (rs : List Nat) (fi : Nat) : Nat := fi - rs.countP (fun r => decide (r < fi))

/-- The per-mesh body of execute: find duplicates, build the index
mapping, rewrite the face indices, then remove the duplicate slots from
highest to lowest index. Returns the new slot list, the new face indices,
the number of removed slots, and whether edit mode was entered. -/
def processMesh (slots : List (Option Material)) (faces : List Nat) :
    List (Option Material) × List Nat × Nat × Bool :=
  if slots.isEmpty then (slots, faces, 0, false)
  else
    let mats := slots.filterMap id
    if mats.length < 2 then (slots, faces, 0, false)
    else
      let dups := find_duplicate_materials mats
      if dups.isEmpty then (slots, faces, 0, false)
      else
        let pairs := buildMapping slots dups
        if pairs.isEmpty then (slots, faces, 0, false)
        else
          let faces1 := faces.map (remapFace pairs)
          let rs := sortDesc (pairs.map Prod.fst).dedup
          let res := removeSlots slots faces1 rs
          (res.1, res.2.1, res.2.2, true)

/-- The material a face index resolves to in a slot list: the entry the
index points at, when in range and non-empty. -/
def resolve (slots : List (Option Material)) (fi : Nat) : Option Material :=
  match slots[fi]? with
  | some (some m) => some m
  | _ => none

/-- Visual equivalence of two resolved materials: both absent, or both
present and either the same datablock or duplicates by value. -/
def resolvedEquiv : Option Material → Option Material → Prop
  | none, none => True
  | some m, some m' => m.id = m'.id ∨ compare_material_properties (some m) (some m') = true
  | _, _ => False

/-- A selected scene object as execute sees it. -/
structure SceneObject where
  type : String
  slots : List (Option Material)
  faces : List Nat
  deriving DecidableEq

/-- Operator return status. -/
inductive OpResult
  | FINISHED
  | CANCELLED
  deriving DecidableEq

/-- One iteration of the object loop in execute. -/
def execStep (acc : List SceneObject × Nat × Nat) (o : SceneObject) :
    List SceneObject × Nat × Nat :=
  if o.type = "MESH" then
    let res := processMesh o.slots o.faces
    (acc.1 ++ [{ o with slots := res.1, faces := res.2.1 }], acc.2.1 + res.2.2.1, acc.2.2 + 1)
  else (acc.1 ++ [o], acc.2.1, acc.2.2)

/-- Embedding of OBJECT_OT_remove_duplicate_materials.execute: status,
final objects, removed slot count, processed object count. -/
def execute (selected : List SceneObject) : OpResult × List SceneObject × Nat × Nat :=
  if selected.isEmpty then (OpResult.CANCELLED, selected, 0, 0)
  else if (selected.filter (fun o => decide (o.type = "MESH"))).isEmpty then
    (OpResult.CANCELLED, selected, 0, 0)
  else
    let res := selected.foldl execStep ([], 0, 0)
    (OpResult.FINISHED, res.1, res.2.1, res.2.2)

/-- A plain nodeless material, parametrised by its identity. Two baseMat
values with different ids model distinct datablocks with equal settings. -/
def baseMat (i : Nat) : Material :=
  { id := i, use_nodes := false, blend_method := "OPAQUE", alpha_threshold := 0,
    show_transparent_back := false, use_backface_culling := false,
    diffuse_color := [1, 1, 1, 1], metallic := some 0, specular := some 0,
    roughness := some 0, node_tree := none }

/-- Concrete material A for the worked example. -/
def mA : Material := baseMat 0

/-- Concrete material B, a value-duplicate of A with a distinct identity. -/
def mB : Material := baseMat 1

/-- Concrete material C, distinct from A and B by blend method. -/
def mC : Material := { baseMat 2 with blend_method := "BLEND" }

/-- Concrete material D, a value-duplicate of C with a distinct identity. -/
def mD : Material := { baseMat 3 with blend_method := "BLEND" }

/-- The slot list of the worked remap example: A, B dup of A, C, D dup of C. -/
def slots0 : List (Option Material) := [some mA, some mB, some mC, some mD]

/-- The face indices of the worked remap example. -/
def faces0 : List Nat := [0, 1, 2, 3, 1, 3]

/-- A material with node shading enabled, for the node-step claims. -/
def mUseNodes : Material := { baseMat 20 with use_nodes := true }

/-- A material with node shading disabled, for the node-step claims. -/
def mNoNodes : Material := baseMat 21

/-- Base material with a chosen alpha threshold, for the tolerance claims. -/
def withAlpha (i : Nat) (x : ℚ) : Material := { baseMat i with alpha_threshold := x }

/-- Base material with a chosen first diffuse component. -/
def withDiffuse (i : Nat) (x : ℚ) : Material := { baseMat i with diffuse_color := [x, 1, 1, 1] }

/-- Base material with a chosen metallic value. -/
def withMetallic (i : Nat) (x : ℚ) : Material := { baseMat i with metallic := some x }

/-- Base material with a chosen specular value. -/
def withSpecular (i : Nat) (x : ℚ) : Material := { baseMat i with specular := some x }

/-- Base material with a chosen roughness value. -/
def withRoughness (i : Nat) (x : ℚ) : Material := { baseMat i with roughness := some x }

/-- A mix node at the origin with a chosen display name; two of these with
different names share type and location but have distinct structural keys. -/
def nodeMix (nm : String) : Node :=
  { type := "MIX", location := (0, 0), name := nm, color := none, hide := none,
    inputs := [], image := none, interpolation := none }

/-- An output node, the common link target in the counterexample trees. -/
def nodeOut : Node :=
  { type := "OUTPUT_MATERIAL", location := (1, 0), name := "m", color := none,
    hide := none, inputs := [], image := none, interpolation := none }

/-- First counterexample tree: the link leaves the mix node named a. -/
def cexTree1 : NodeTree :=
  { nodes := [nodeMix "a", nodeMix "b", nodeOut],
    links := [{ from_node := nodeMix "a", from_socket := "Result",
                to_node := nodeOut, to_socket := "Surface" }] }

/-- Second counterexample tree: the link leaves the mix node named b. -/
def cexTree2 : NodeTree :=
  { nodes := [nodeMix "a", nodeMix "b", nodeOut],
    links := [{ from_node := nodeMix "b", from_socket := "Result",
                to_node := nodeOut, to_socket := "Surface" }] }

lemma blt_iff (a b : ℚ) : Rat.blt a b = true ↔ a < b := Iff.rfl

lemma tol_eq : tol = 1 / 1000 := by
  rw [tol, Rat.mkRat_eq_divInt, Rat.divInt_eq_div]
  norm_num

lemma qsub_eq (x y : ℚ) : qsub x y = x - y := by
  have hx : (x.den : ℚ) ≠ 0 := Nat.cast_ne_zero.mpr x.den_nz
  have hy : (y.den : ℚ) ≠ 0 := Nat.cast_ne_zero.mpr y.den_nz
  rw [qsub, Rat.mkRat_eq_divInt, Rat.divInt_eq_div]
  push_cast
  conv_rhs => rw [← Rat.num_div_den x, ← Rat.num_div_den y]
  rw [div_sub_div _ _ hx hy]
  ring_nf

lemma qabs_eq (x : ℚ) : qabs x = |x| := by
  rw [qabs]
  by_cases h : x < 0
  · rw [if_pos (blt_iff x 0 |>.mpr h), ← Rat.neg_mkRat, Rat.mkRat_self, abs_of_neg h]
  · have hb : Rat.blt x 0 = false := by
      cases hb : Rat.blt x 0
      · rfl
      · exact absurd ((blt_iff x 0).mp hb) h
    rw [hb, if_neg (by simp), abs_of_nonneg (not_lt.1 h)]

lemma qFar_eq (x y : ℚ) : qFar x y = decide (tol < |x - y|) := by
  rw [qFar, qsub_eq, qabs_eq]
  by_cases h : tol < |x - y|
  · rw [(blt_iff _ _).mpr h, decide_eq_true h]
  · have hb : Rat.blt tol |x - y| = false := by
      cases hb : Rat.blt tol |x - y|
      · rfl
      · exact absurd ((blt_iff _ _).mp hb) h
    rw [hb, decide_eq_false h]

lemma qFar_false_iff (x y : ℚ) : qFar x y = false ↔ |x - y| ≤ tol := by
  rw [qFar_eq]
  simp [not_lt]

lemma qFar_comm (x y : ℚ) : qFar x y = qFar y x := by
  rw [qFar_eq, qFar_eq, abs_sub_comm]

lemma colorFar_comm (c1 c2 : List ℚ) : colorFar c1 c2 = colorFar c2 c1 := by
  have hswap : c2.zip c1 = (c1.zip c2).map Prod.swap := (List.zip_swap c1 c2).symm
  rw [colorFar, colorFar, hswap, List.any_map]
  have hfun : ((fun p : ℚ × ℚ => qFar p.1 p.2) ∘ Prod.swap) = fun p : ℚ × ℚ => qFar p.1 p.2 :=
    funext fun p => qFar_comm p.2 p.1
  rw [hfun]

lemma optBothFar_comm (a b : Option ℚ) : optBothFar a b = optBothFar b a := by
  cases a with
  | none => cases b <;> rfl
  | some x =>
    cases b with
    | none => rfl
    | some y => exact qFar_comm x y

lemma presenceMismatch_comm (a b : Option ℚ) : presenceMismatch a b = presenceMismatch b a := by
  cases a <;> cases b <;> rfl

lemma nodeTreeSubCheck_comm (t1 t2 : Option NodeTree) :
    nodeTreeSubCheck t1 t2 = nodeTreeSubCheck t2 t1 := by
  cases t1 with
  | none => cases t2 <;> rfl
  | some a =>
    cases t2 with
    | none => rfl
    | some b =>
      simp only [nodeTreeSubCheck]
      rw [show decide (a.nodes.length = b.nodes.length)
            = decide (b.nodes.length = a.nodes.length) from decide_eq_decide.mpr eq_comm,
        show decide (a.links.length = b.links.length)
            = decide (b.links.length = a.links.length) from decide_eq_decide.mpr eq_comm]

lemma compare_true_ne_ids {a b : Material}
    (h : compare_material_properties (some a) (some b) = true) : a.id ≠ b.id := by
  intro hid
  rw [compare_material_properties, if_pos hid] at h
  exact Bool.noConfusion h

lemma compare_comm (a b : Option Material) :
    compare_material_properties a b = compare_material_properties b a := by
  cases a with
  | none => cases b <;> rfl
  | some m1 =>
    cases b with
    | none => rfl
    | some m2 =>
      simp only [compare_material_properties]
      rw [qFar_comm m1.alpha_threshold m2.alpha_threshold,
        colorFar_comm m1.diffuse_color m2.diffuse_color,
        optBothFar_comm m1.metallic m2.metallic,
        optBothFar_comm m1.specular m2.specular,
        presenceMismatch_comm m1.specular m2.specular,
        optBothFar_comm m1.roughness m2.roughness,
        Bool.and_comm m1.use_nodes m2.use_nodes,
        nodeTreeSubCheck_comm m1.node_tree m2.node_tree]
      exact if_congr eq_comm rfl (if_congr ne_comm rfl (if_congr ne_comm rfl
        (if_congr Iff.rfl rfl (if_congr ne_comm rfl (if_congr ne_comm rfl
        (if_congr ne_comm rfl (if_congr Iff.rfl rfl (if_congr Iff.rfl rfl
        (if_congr Iff.rfl rfl (if_congr Iff.rfl rfl (if_congr Iff.rfl rfl
        (if_congr Iff.rfl rfl (if_congr ne_comm rfl rfl)))))))))))))

lemma collectDups_cons (m1 m2 : Material) (rest : List Material) (processed : List Nat) :
    collectDups m1 (m2 :: rest) processed =
      if m2.id ∈ processed then collectDups m1 rest processed
      else if compare_material_properties (some m1) (some m2) then
        (m2 :: (collectDups m1 rest (m2.id :: processed)).1,
          (collectDups m1 rest (m2.id :: processed)).2)
      else collectDups m1 rest processed := rfl

lemma findDupsAux_cons (m1 : Material) (rest : List Material) (processed : List Nat) :
    findDupsAux (m1 :: rest) processed =
      if m1.id ∈ processed then findDupsAux rest processed
      else if (collectDups m1 rest processed).1.isEmpty then
        findDupsAux rest (collectDups m1 rest processed).2
      else (m1, (collectDups m1 rest processed).1)
        :: findDupsAux rest (m1.id :: (collectDups m1 rest processed).2) := rfl

lemma collectDups_snd (m1 : Material) (rest : List Material) :
    ∀ processed, (collectDups m1 rest processed).2 =
      ((collectDups m1 rest processed).1.map (fun d => d.id)).reverse ++ processed := by
  induction rest with
  | nil => intro processed; rfl
  | cons m2 rest ih =>
    intro processed
    rw [collectDups_cons]
    by_cases h1 : m2.id ∈ processed
    · rw [if_pos h1]; exact ih processed
    · rw [if_neg h1]
      by_cases h2 : compare_material_properties (some m1) (some m2) = true
      · rw [if_pos h2]
        rw [show (m2 :: (collectDups m1 rest (m2.id :: processed)).1,
            (collectDups m1 rest (m2.id :: processed)).2).2
          = (collectDups m1 rest (m2.id :: processed)).2 from rfl]
        rw [ih (m2.id :: processed)]
        simp [List.append_assoc]
      · rw [if_neg h2]; exact ih processed

lemma collect_mem {m1 : Material} {rest : List Material} :
    ∀ {processed : List Nat} {d : Material}, d ∈ (collectDups m1 rest processed).1 →
      d ∈ rest ∧ compare_material_properties (some m1) (some d) = true := by
  induction rest with
  | nil => intro p d h; exact absurd h (List.not_mem_nil d)
  | cons m2 rest ih =>
    intro p d h
    rw [collectDups_cons] at h
    by_cases h1 : m2.id ∈ p
    · rw [if_pos h1] at h
      exact (ih h).imp (List.mem_cons_of_mem m2) (fun x => x)
    · rw [if_neg h1] at h
      by_cases h2 : compare_material_properties (some m1) (some m2) = true
      · rw [if_pos h2] at h
        rcases List.mem_cons.mp h with rfl | h
        · exact ⟨List.mem_cons_self _ _, h2⟩
        · exact (ih h).imp (List.mem_cons_of_mem m2) (fun x => x)
      · rw [if_neg h2] at h
        exact (ih h).imp (List.mem_cons_of_mem m2) (fun x => x)

lemma collect_fresh (m1 : Material) (rest : List Material) :
    ∀ processed,
      ((collectDups m1 rest processed).1.map (fun d => d.id)).Nodup ∧
      ∀ x ∈ (collectDups m1 rest processed).1.map (fun d => d.id), x ∉ processed := by
  induction rest with
  | nil =>
    intro p
    refine ⟨List.nodup_nil, ?_⟩
    intro x hx
    exact absurd hx (List.not_mem_nil x)
  | cons m2 rest ih =>
    intro p
    rw [collectDups_cons]
    by_cases h1 : m2.id ∈ p
    · rw [if_pos h1]; exact ih p
    · rw [if_neg h1]
      by_cases h2 : compare_material_properties (some m1) (some m2) = true
      · rw [if_pos h2]
        obtain ⟨hnd, hfr⟩ := ih (m2.id :: p)
        rw [show (m2 :: (collectDups m1 rest (m2.id :: p)).1,
            (collectDups m1 rest (m2.id :: p)).2).1
          = m2 :: (collectDups m1 rest (m2.id :: p)).1 from rfl]
        rw [List.map_cons]
        constructor
        · refine List.nodup_cons.mpr ⟨?_, hnd⟩
          intro hmem
          exact (hfr _ hmem) (List.mem_cons_self _ _)
        · intro x hx
          rcases List.mem_cons.mp hx with rfl | hx
          · exact h1
          · intro hxp
            exact (hfr x hx) (List.mem_cons_of_mem _ hxp)
      · rw [if_neg h2]; exact ih p

lemma collect_complete (m1 : Material) (rest : List Material) :
    ∀ (processed : List Nat) (k : Nat) (d : Material),
      rest[k]? = some d →
      d.id ∉ processed →
      (∀ l x, l < k → rest[l]? = some x → x.id ≠ d.id) →
      compare_material_properties (some m1) (some d) = true →
      d ∈ (collectDups m1 rest processed).1 := by
  induction rest with
  | nil => intro p k d hk _ _ _; rw [List.getElem?_nil] at hk; exact Option.noConfusion hk
  | cons m2 rest ih =>
    intro p k d hk hdp hdist hcmp
    cases k with
    | zero =>
      rw [List.getElem?_cons_zero] at hk
      injection hk with hk
      subst hk
      rw [collectDups_cons, if_neg hdp, if_pos hcmp]
      exact List.mem_cons_self _ _
    | succ k =>
      rw [List.getElem?_cons_succ] at hk
      rw [collectDups_cons]
      by_cases h1 : m2.id ∈ p
      · rw [if_pos h1]
        refine ih p k d hk hdp ?_ hcmp
        intro l x hl hx
        exact hdist (l + 1) x (by omega) (by rw [List.getElem?_cons_succ]; exact hx)
      · rw [if_neg h1]
        by_cases h2 : compare_material_properties (some m1) (some m2) = true
        · rw [if_pos h2]
          refine List.mem_cons_of_mem m2 (ih (m2.id :: p) k d hk ?_ ?_ hcmp)
          · intro hmem
            rcases List.mem_cons.mp hmem with heq | hmem
            · exact hdist 0 m2 (by omega) List.getElem?_cons_zero heq.symm
            · exact hdp hmem
          · intro l x hl hx
            exact hdist (l + 1) x (by omega) (by rw [List.getElem?_cons_succ]; exact hx)
        · rw [if_neg h2]
          refine ih p k d hk hdp ?_ hcmp
          intro l x hl hx
          exact hdist (l + 1) x (by omega) (by rw [List.getElem?_cons_succ]; exact hx)

lemma mem_dupIds {r : List (Material × List Material)} {x : Nat} :
    x ∈ dupIds r ↔ ∃ g ∈ r, ∃ d ∈ g.2, d.id = x := by
  induction r with
  | nil => simp [dupIds]
  | cons g r ih =>
    simp only [dupIds, List.mem_append, List.mem_map, ih, List.mem_cons]
    constructor
    · rintro (⟨d, hd, rfl⟩ | ⟨g', hg', d, hd, rfl⟩)
      · exact ⟨g, Or.inl rfl, d, hd, rfl⟩
      · exact ⟨g', Or.inr hg', d, hd, rfl⟩
    · rintro ⟨g', hg' | hg', d, hd, rfl⟩
      · subst hg'; exact Or.inl ⟨d, hd, rfl⟩
      · exact Or.inr ⟨g', hg', d, hd, rfl⟩

lemma dup_id_mem {r : List (Material × List Material)} {c : Material}
    {ds : List Material} {d : Material} (hg : (c, ds) ∈ r) (hd : d ∈ ds) :
    d.id ∈ dupIds r :=
  mem_dupIds.mpr ⟨(c, ds), hg, d, hd, rfl⟩

lemma findDupsAux_spec (mats : List Material) :
    ∀ (processed : List Nat) (c : Material) (ds : List Material),
      (c, ds) ∈ findDupsAux mats processed →
      c ∈ mats ∧ ds ≠ [] ∧
        ∀ d ∈ ds, d ∈ mats ∧ compare_material_properties (some c) (some d) = true := by
  induction mats with
  | nil => intro p c ds h; exact absurd h (List.not_mem_nil _)
  | cons m1 rest ih =>
    intro p c ds h
    rw [findDupsAux_cons] at h
    by_cases h1 : m1.id ∈ p
    · rw [if_pos h1] at h
      obtain ⟨hc, hne, hds⟩ := ih p c ds h
      exact ⟨List.mem_cons_of_mem _ hc, hne,
        fun d hd => ⟨List.mem_cons_of_mem _ (hds d hd).1, (hds d hd).2⟩⟩
    · rw [if_neg h1] at h
      by_cases h2 : (collectDups m1 rest p).1.isEmpty = true
      · rw [if_pos h2] at h
        obtain ⟨hc, hne, hds⟩ := ih _ c ds h
        exact ⟨List.mem_cons_of_mem _ hc, hne,
          fun d hd => ⟨List.mem_cons_of_mem _ (hds d hd).1, (hds d hd).2⟩⟩
      · rw [if_neg h2] at h
        rcases List.mem_cons.mp h with heq | h
        · injection heq with hc hds
          subst hc; subst hds
          refine ⟨List.mem_cons_self _ _, ?_, ?_⟩
          · intro hnil
            rw [hnil] at h2
            exact h2 rfl
          · intro d hd
            obtain ⟨hdr, hcmp⟩ := collect_mem hd
            exact ⟨List.mem_cons_of_mem _ hdr, hcmp⟩
        · obtain ⟨hc, hne, hds⟩ := ih _ c ds h
          exact ⟨List.mem_cons_of_mem _ hc, hne,
            fun d hd => ⟨List.mem_cons_of_mem _ (hds d hd).1, (hds d hd).2⟩⟩

lemma mem_collect_snd {m1 : Material} {rest : List Material} {p : List Nat} {x : Nat} :
    x ∈ (collectDups m1 rest p).2 ↔
      x ∈ (collectDups m1 rest p).1.map (fun d => d.id) ∨ x ∈ p := by
  rw [collectDups_snd, List.mem_append, List.mem_reverse]

lemma findDupsAux_inv (mats : List Material) :
    ∀ processed : List Nat,
      (dupIds (findDupsAux mats processed)).Nodup ∧
      (∀ x ∈ dupIds (findDupsAux mats processed), x ∉ processed) ∧
      (∀ g ∈ findDupsAux mats processed,
        g.1.id ∉ dupIds (findDupsAux mats processed) ∧ g.1.id ∉ processed) := by
  induction mats with
  | nil =>
    intro p
    refine ⟨List.nodup_nil, ?_, ?_⟩
    · intro x hx; exact absurd hx (List.not_mem_nil _)
    · intro g hg; exact absurd hg (List.not_mem_nil _)
  | cons m1 rest ih =>
    intro p
    rw [findDupsAux_cons]
    by_cases h1 : m1.id ∈ p
    · rw [if_pos h1]; exact ih p
    · rw [if_neg h1]
      by_cases h2 : (collectDups m1 rest p).1.isEmpty = true
      · rw [if_pos h2]
        have hsnd : (collectDups m1 rest p).2 = p := by
          rw [collectDups_snd, List.isEmpty_iff.mp h2]
          rfl
        rw [hsnd]
        exact ih p
      · rw [if_neg h2]
        obtain ⟨hnd', hfr', hcan'⟩ := ih (m1.id :: (collectDups m1 rest p).2)
        obtain ⟨hndds, hfrds⟩ := collect_fresh m1 rest p
        have hsub : ∀ x ∈ (collectDups m1 rest p).1.map (fun d => d.id),
            x ∈ m1.id :: (collectDups m1 rest p).2 := by
          intro x hx
          exact List.mem_cons_of_mem _ (mem_collect_snd.mpr (Or.inl hx))
        have hdup_eq : dupIds ((m1, (collectDups m1 rest p).1)
            :: findDupsAux rest (m1.id :: (collectDups m1 rest p).2))
            = (collectDups m1 rest p).1.map (fun d => d.id)
              ++ dupIds (findDupsAux rest (m1.id :: (collectDups m1 rest p).2)) := rfl
        rw [hdup_eq]
        refine ⟨?_, ?_, ?_⟩
        · refine List.Nodup.append hndds hnd' ?_
          intro x hx hx'
          exact hfr' x hx' (hsub x hx)
        · intro x hx
          rcases List.mem_append.mp hx with hx | hx
          · exact hfrds x hx
          · intro hxp
            exact hfr' x hx (List.mem_cons_of_mem _ (mem_collect_snd.mpr (Or.inr hxp)))
        · intro g hg
          rcases List.mem_cons.mp hg with heq | hg
          · subst heq
            constructor
            · intro hmem
              rcases List.mem_append.mp hmem with hmem | hmem
              · obtain ⟨d, hd, hid⟩ := List.mem_map.mp hmem
                exact compare_true_ne_ids (collect_mem hd).2 hid.symm
              · exact hfr' _ hmem (List.mem_cons_self _ _)
            · exact h1
          · obtain ⟨hg1, hg2⟩ := hcan' g hg
            constructor
            · intro hmem
              rcases List.mem_append.mp hmem with hmem | hmem
              · exact hg2 (hsub _ hmem)
              · exact hg1 hmem
            · intro hgp
              exact hg2 (List.mem_cons_of_mem _ (mem_collect_snd.mpr (Or.inr hgp)))

lemma nodup_map_getElem_ne {α β : Type} (f : α → β) (l : List α)
    (h : (l.map f).Nodup) {i j : Nat} {x y : α} (hij : i ≠ j)
    (hi : l[i]? = some x) (hj : l[j]? = some y) : f x ≠ f y := by
  intro hfeq
  have hi' : (l.map f)[i]? = some (f x) := by rw [List.getElem?_map, hi]; rfl
  have hj' : (l.map f)[j]? = some (f y) := by rw [List.getElem?_map, hj]; rfl
  have hlen : i < (l.map f).length := by
    rw [List.length_map]
    exact (List.getElem?_eq_some.mp hi).1
  exact hij (List.getElem?_inj hlen h (by rw [hi', hj', hfeq]))

lemma remaining_pairwise_aux (mats : List Material) :
    ∀ (processed : List Nat) (p q : Nat) (m m' : Material),
      (mats.map (fun x => x.id)).Nodup →
      mats[p]? = some m → mats[q]? = some m' → p < q →
      m.id ∉ processed → m'.id ∉ processed →
      m.id ∉ dupIds (findDupsAux mats processed) →
      m'.id ∉ dupIds (findDupsAux mats processed) →
      compare_material_properties (some m) (some m') = false := by
  induction mats with
  | nil =>
    intro prc p q m m' _ hp _ _ _ _ _ _
    rw [List.getElem?_nil] at hp
    exact Option.noConfusion hp
  | cons m1 rest ih =>
    intro prc p q m m' hnd hp hq hpq hmp hmp' hmD hmD'
    have hndrest : (rest.map (fun x => x.id)).Nodup := (List.nodup_cons.mp hnd).2
    have hm1rest : m1.id ∉ rest.map (fun x => x.id) := (List.nodup_cons.mp hnd).1
    rw [findDupsAux_cons] at hmD hmD'
    by_cases h1 : m1.id ∈ prc
    · rw [if_pos h1] at hmD hmD'
      cases p with
      | zero =>
        rw [List.getElem?_cons_zero] at hp
        injection hp with hp
        subst hp
        exact absurd h1 hmp
      | succ p =>
        cases q with
        | zero => omega
        | succ q =>
          rw [List.getElem?_cons_succ] at hp hq
          exact ih prc p q m m' hndrest hp hq (by omega) hmp hmp' hmD hmD'
    · rw [if_neg h1] at hmD hmD'
      by_cases h2 : (collectDups m1 rest prc).1.isEmpty = true
      · rw [if_pos h2] at hmD hmD'
        have hsnd : (collectDups m1 rest prc).2 = prc := by
          rw [collectDups_snd, List.isEmpty_iff.mp h2]
          rfl
        rw [hsnd] at hmD hmD'
        cases p with
        | zero =>
          rw [List.getElem?_cons_zero] at hp
          injection hp with hp
          subst hp
          cases q with
          | zero => omega
          | succ q =>
            rw [List.getElem?_cons_succ] at hq
            by_cases hcmp : compare_material_properties (some m1) (some m') = true
            · exfalso
              have hmem : m' ∈ (collectDups m1 rest prc).1 := by
                refine collect_complete m1 rest prc q m' hq hmp' ?_ hcmp
                intro l x hl hx
                exact nodup_map_getElem_ne _ rest hndrest (by omega) hx hq
              rw [List.isEmpty_iff.mp h2] at hmem
              exact List.not_mem_nil _ hmem
            · exact Bool.eq_false_iff.mpr hcmp
        | succ p =>
          cases q with
          | zero => omega
          | succ q =>
            rw [List.getElem?_cons_succ] at hp hq
            exact ih prc p q m m' hndrest hp hq (by omega) hmp hmp' hmD hmD'
      · rw [if_neg h2] at hmD hmD'
        have hdup_eq : dupIds ((m1, (collectDups m1 rest prc).1)
            :: findDupsAux rest (m1.id :: (collectDups m1 rest prc).2))
            = (collectDups m1 rest prc).1.map (fun d => d.id)
              ++ dupIds (findDupsAux rest (m1.id :: (collectDups m1 rest prc).2)) := rfl
        rw [hdup_eq] at hmD hmD'
        cases p with
        | zero =>
          rw [List.getElem?_cons_zero] at hp
          injection hp with hp
          subst hp
          cases q with
          | zero => omega
          | succ q =>
            rw [List.getElem?_cons_succ] at hq
            by_cases hcmp : compare_material_properties (some m1) (some m') = true
            · exfalso
              have hmem : m' ∈ (collectDups m1 rest prc).1 := by
                refine collect_complete m1 rest prc q m' hq hmp' ?_ hcmp
                intro l x hl hx
                exact nodup_map_getElem_ne _ rest hndrest (by omega) hx hq
              exact hmD' (List.mem_append.mpr (Or.inl (List.mem_map.mpr ⟨m', hmem, rfl⟩)))
            · exact Bool.eq_false_iff.mpr hcmp
        | succ p =>
          cases q with
          | zero => omega
          | succ q =>
            rw [List.getElem?_cons_succ] at hp hq
            have hmDr : m.id ∉ dupIds (findDupsAux rest (m1.id :: (collectDups m1 rest prc).2)) :=
              fun hx => hmD (List.mem_append.mpr (Or.inr hx))
            have hmDr' : m'.id ∉ dupIds (findDupsAux rest (m1.id :: (collectDups m1 rest prc).2)) :=
              fun hx => hmD' (List.mem_append.mpr (Or.inr hx))
            have hmpn : m.id ∉ m1.id :: (collectDups m1 rest prc).2 := by
              intro hx
              rcases List.mem_cons.mp hx with heq | hx
              · exact hm1rest (heq ▸ List.mem_map.mpr ⟨m, List.getElem?_mem hp, rfl⟩)
              · rcases mem_collect_snd.mp hx with hx | hx
                · exact hmD (List.mem_append.mpr (Or.inl hx))
                · exact hmp hx
            have hmpn' : m'.id ∉ m1.id :: (collectDups m1 rest prc).2 := by
              intro hx
              rcases List.mem_cons.mp hx with heq | hx
              · exact hm1rest (heq ▸ List.mem_map.mpr ⟨m', List.getElem?_mem hq, rfl⟩)
              · rcases mem_collect_snd.mp hx with hx | hx
                · exact hmD' (List.mem_append.mpr (Or.inl hx))
                · exact hmp' hx
            exact ih _ p q m m' hndrest hp hq (by omega) hmpn hmpn' hmDr hmDr'

instance : IsTotal ℕ (fun a b => b ≤ a) :=
  ⟨fun a b => (Nat.le_total b a).imp (fun h => h) (fun h => h)⟩

instance : IsTrans ℕ (fun a b => b ≤ a) :=
  ⟨fun _ _ _ hab hbc => Nat.le_trans hbc hab⟩

lemma sortDesc_perm (l : List Nat) : (sortDesc l).Perm l :=
  List.perm_insertionSort _ l

lemma sortDesc_mem {l : List Nat} {x : Nat} : x ∈ sortDesc l ↔ x ∈ l :=
  (sortDesc_perm l).mem_iff

lemma sortDesc_nodup {l : List Nat} (h : l.Nodup) : (sortDesc l).Nodup :=
  ((sortDesc_perm l).nodup_iff).mpr h

lemma sortDesc_strict {l : List Nat} (h : l.Nodup) :
    (sortDesc l).Pairwise (fun a b => b < a) := by
  have h1 : (sortDesc l).Pairwise (fun a b => b ≤ a) := List.sorted_insertionSort _ l
  have h2 : (sortDesc l).Pairwise (fun a b => a ≠ b) := sortDesc_nodup h
  exact (h1.and h2).imp (fun hab => lt_of_le_of_ne hab.1 (Ne.symm hab.2))

lemma adjust_nil (fi : Nat) : adjust [] fi = fi := rfl

lemma adjust_cons (r1 : Nat) (rest : List Nat) (hlt : ∀ r ∈ rest, r < r1) (fi : Nat) :
    adjust rest (if r1 < fi then fi - 1 else fi) = adjust (r1 :: rest) fi := by
  by_cases h : r1 < fi
  · rw [if_pos h]
    have hcnt : rest.countP (fun r => decide (r < fi - 1))
        = rest.countP (fun r => decide (r < fi)) := by
      apply List.countP_congr
      intro r hr
      have := hlt r hr
      have h1 : r < fi - 1 := by omega
      have h2 : r < fi := by omega
      simp [h1, h2]
    have hc : (r1 :: rest).countP (fun r => decide (r < fi))
        = rest.countP (fun r => decide (r < fi)) + 1 := by
      rw [List.countP_cons]
      simp [h]
    rw [adjust, adjust, hcnt, hc]
    omega
  · rw [if_neg h]
    rw [adjust, adjust, List.countP_cons]
    simp [h]

lemma removeSlots_cons_fst (slots : List (Option Material)) (faces : List Nat)
    (idx : Nat) (rest : List Nat) (h : idx < slots.length) :
    (removeSlots slots faces (idx :: rest)).1 =
      (removeSlots (slots.eraseIdx idx)
        (faces.map (fun fi => if idx < fi then fi - 1 else fi)) rest).1 := by
  simp [removeSlots, h]

lemma removeSlots_cons_snd (slots : List (Option Material)) (faces : List Nat)
    (idx : Nat) (rest : List Nat) (h : idx < slots.length) :
    (removeSlots slots faces (idx :: rest)).2.1 =
      (removeSlots (slots.eraseIdx idx)
        (faces.map (fun fi => if idx < fi then fi - 1 else fi)) rest).2.1 := by
  simp [removeSlots, h]

lemma removeSlots_faces (rs : List Nat) :
    ∀ (slots : List (Option Material)) (faces : List Nat),
      rs.Pairwise (fun a b => b < a) → (∀ r ∈ rs, r < slots.length) →
      (removeSlots slots faces rs).2.1 = faces.map (adjust rs) := by
  induction rs with
  | nil =>
    intro slots faces _ _
    rw [show adjust [] = fun fi => fi from funext adjust_nil]
    simp [removeSlots]
  | cons r1 rest ih =>
    intro slots faces hpw hlt
    have hr1 : r1 < slots.length := hlt r1 (List.mem_cons_self _ _)
    have hhead : ∀ r ∈ rest, r < r1 := (List.pairwise_cons.mp hpw).1
    have hpw' := (List.pairwise_cons.mp hpw).2
    have hlt' : ∀ r ∈ rest, r < (slots.eraseIdx r1).length := by
      intro r hr
      rw [List.length_eraseIdx, if_pos hr1]
      have := hhead r hr
      omega
    rw [removeSlots_cons_snd _ _ _ _ hr1, ih _ _ hpw' hlt', List.map_map]
    rw [show (adjust rest ∘ fun fi => if r1 < fi then fi - 1 else fi) = adjust (r1 :: rest)
      from funext fun fi => adjust_cons r1 rest hhead fi]

lemma removeSlots_get (rs : List Nat) :
    ∀ (slots : List (Option Material)) (faces : List Nat),
      rs.Pairwise (fun a b => b < a) → (∀ r ∈ rs, r < slots.length) →
      ∀ fi, fi ∉ rs →
      (removeSlots slots faces rs).1[adjust rs fi]? = slots[fi]? := by
  induction rs with
  | nil =>
    intro slots faces _ _ fi _
    rw [adjust_nil]
    rfl
  | cons r1 rest ih =>
    intro slots faces hpw hlt fi hfi
    have hr1 : r1 < slots.length := hlt r1 (List.mem_cons_self _ _)
    have hhead : ∀ r ∈ rest, r < r1 := (List.pairwise_cons.mp hpw).1
    have hpw' := (List.pairwise_cons.mp hpw).2
    have hlt' : ∀ r ∈ rest, r < (slots.eraseIdx r1).length := by
      intro r hr
      rw [List.length_eraseIdx, if_pos hr1]
      have := hhead r hr
      omega
    have hfir : fi ∉ rest := fun h => hfi (List.mem_cons_of_mem _ h)
    have hfi1 : fi ≠ r1 := fun h => hfi (h ▸ List.mem_cons_self _ _)
    rw [removeSlots_cons_fst _ _ _ _ hr1]
    rcases Nat.lt_or_ge r1 fi with h | h
    · have hfi' : fi - 1 ∉ rest := by
        intro hmem
        have := hhead _ hmem
        omega
      have step := ih (slots.eraseIdx r1)
        (faces.map (fun fi => if r1 < fi then fi - 1 else fi)) hpw' hlt' (fi - 1) hfi'
      have hadj : adjust rest (fi - 1) = adjust (r1 :: rest) fi := by
        have hac := adjust_cons r1 rest hhead fi
        rw [if_pos h] at hac
        exact hac
      rw [hadj] at step
      rw [step, List.getElem?_eraseIdx, if_neg (by omega)]
      congr 1
      omega
    · have hlt2 : fi < r1 := by omega
      have step := ih (slots.eraseIdx r1)
        (faces.map (fun fi => if r1 < fi then fi - 1 else fi)) hpw' hlt' fi hfir
      have hadj : adjust rest fi = adjust (r1 :: rest) fi := by
        have hac := adjust_cons r1 rest hhead fi
        rw [if_neg (by omega)] at hac
        exact hac
      rw [hadj] at step
      rw [step, List.getElem?_eraseIdx, if_pos hlt2]

lemma removeSlots_mem (rs : List Nat) :
    ∀ (slots : List (Option Material)) (faces : List Nat) (i' : Nat) (e : Option Material),
      rs.Pairwise (fun a b => b < a) → (∀ r ∈ rs, r < slots.length) →
      (removeSlots slots faces rs).1[i']? = some e →
      ∃ fi, fi ∉ rs ∧ slots[fi]? = some e ∧ adjust rs fi = i' := by
  induction rs with
  | nil =>
    intro slots faces i' e _ _ h
    exact ⟨i', List.not_mem_nil i', h, adjust_nil i'⟩
  | cons r1 rest ih =>
    intro slots faces i' e hpw hlt h
    have hr1 : r1 < slots.length := hlt r1 (List.mem_cons_self _ _)
    have hhead : ∀ r ∈ rest, r < r1 := (List.pairwise_cons.mp hpw).1
    have hpw' := (List.pairwise_cons.mp hpw).2
    have hlt' : ∀ r ∈ rest, r < (slots.eraseIdx r1).length := by
      intro r hr
      rw [List.length_eraseIdx, if_pos hr1]
      have := hhead r hr
      omega
    rw [removeSlots_cons_fst _ _ _ _ hr1] at h
    obtain ⟨fi', hfi'r, hget, hadj⟩ := ih (slots.eraseIdx r1)
      (faces.map (fun fi => if r1 < fi then fi - 1 else fi)) i' e hpw' hlt' h
    refine ⟨if fi' < r1 then fi' else fi' + 1, ?_, ?_, ?_⟩
    · by_cases hc : fi' < r1
      · rw [if_pos hc]
        intro hmem
        rcases List.mem_cons.mp hmem with heq | hmem
        · omega
        · exact hfi'r hmem
      · rw [if_neg hc]
        intro hmem
        rcases List.mem_cons.mp hmem with heq | hmem
        · omega
        · have := hhead _ hmem
          omega
    · by_cases hc : fi' < r1
      · rw [if_pos hc]
        rw [List.getElem?_eraseIdx, if_pos hc] at hget
        exact hget
      · rw [if_neg hc]
        rw [List.getElem?_eraseIdx, if_neg (by omega)] at hget
        exact hget
    · by_cases hc : fi' < r1
      · rw [if_pos hc]
        have hac := adjust_cons r1 rest hhead fi'
        rw [if_neg (by omega)] at hac
        rw [← hac]
        exact hadj
      · rw [if_neg hc]
        have hac := adjust_cons r1 rest hhead (fi' + 1)
        rw [if_pos (by omega)] at hac
        rw [show fi' + 1 - 1 = fi' from rfl] at hac
        rw [← hac]
        exact hadj

lemma isSome_map_nat (f : Nat → Nat) (o : Option Nat) : (o.map f).isSome = o.isSome := by
  cases o <;> rfl

lemma findSlotIdx_spec (slots : List (Option Material)) (m : Material) :
    ∀ i, findSlotIdx slots m = some i →
      ∃ s, slots[i]? = some (some s) ∧ s.id = m.id := by
  induction slots with
  | nil => intro i h; exact Option.noConfusion h
  | cons s0 rest ih =>
    intro i h
    cases s0 with
    | none =>
      rw [show findSlotIdx (none :: rest) m
        = (findSlotIdx rest m).map (fun i => i + 1) from rfl] at h
      cases hrec : findSlotIdx rest m with
      | none => rw [hrec] at h; exact Option.noConfusion h
      | some j =>
        rw [hrec] at h
        injection h with h
        subst h
        obtain ⟨s, hs, hid⟩ := ih j hrec
        exact ⟨s, by rw [List.getElem?_cons_succ]; exact hs, hid⟩
    | some s1 =>
      rw [show findSlotIdx (some s1 :: rest) m
        = (if s1.id = m.id then some 0
           else (findSlotIdx rest m).map (fun i => i + 1)) from rfl] at h
      by_cases heq : s1.id = m.id
      · rw [if_pos heq] at h
        injection h with h
        subst h
        exact ⟨s1, List.getElem?_cons_zero, heq⟩
      · rw [if_neg heq] at h
        cases hrec : findSlotIdx rest m with
        | none => rw [hrec] at h; exact Option.noConfusion h
        | some j =>
          rw [hrec] at h
          injection h with h
          subst h
          obtain ⟨s, hs, hid⟩ := ih j hrec
          exact ⟨s, by rw [List.getElem?_cons_succ]; exact hs, hid⟩

lemma findSlotIdx_isSome (slots : List (Option Material)) (m : Material) :
    some m ∈ slots → (findSlotIdx slots m).isSome = true := by
  induction slots with
  | nil => intro h; exact absurd h (List.not_mem_nil _)
  | cons s0 rest ih =>
    intro h
    cases s0 with
    | none =>
      have hm : some m ∈ rest := by
        rcases List.mem_cons.mp h with heq | h2
        · exact Option.noConfusion heq
        · exact h2
      show ((findSlotIdx rest m).map (fun i => i + 1)).isSome = true
      rw [isSome_map_nat]
      exact ih hm
    | some s1 =>
      by_cases heq : s1.id = m.id
      · show (if s1.id = m.id then some 0
          else (findSlotIdx rest m).map (fun i => i + 1)).isSome = true
        rw [if_pos heq]
        rfl
      · have hm : some m ∈ rest := by
          rcases List.mem_cons.mp h with heq2 | h2
          · injection heq2 with heq2
            exact absurd (heq2 ▸ rfl) heq
          · exact h2
        show (if s1.id = m.id then some 0
          else (findSlotIdx rest m).map (fun i => i + 1)).isSome = true
        rw [if_neg heq, isSome_map_nat]
        exact ih hm

lemma groupPairs_mem (slots : List (Option Material)) (oi : Nat) (dlist : List Material) :
    ∀ di oj, (di, oj) ∈ groupPairs slots oi dlist →
      oj = oi ∧ ∃ d ∈ dlist, findSlotIdx slots d = some di := by
  induction dlist with
  | nil => intro di oj h; exact absurd h (List.not_mem_nil _)
  | cons d ds ih =>
    intro di oj h
    rw [show groupPairs slots oi (d :: ds)
      = (match findSlotIdx slots d with
         | none => groupPairs slots oi ds
         | some di' => (di', oi) :: groupPairs slots oi ds) from rfl] at h
    cases hd : findSlotIdx slots d with
    | none =>
      rw [hd] at h
      obtain ⟨hoj, d', hd', hfind⟩ := ih di oj h
      exact ⟨hoj, d', List.mem_cons_of_mem _ hd', hfind⟩
    | some di' =>
      rw [hd] at h
      rcases List.mem_cons.mp h with heq | h2
      · injection heq with h1 h2
        subst h1
        subst h2
        exact ⟨rfl, d, List.mem_cons_self _ _, hd⟩
      · obtain ⟨hoj, d', hd', hfind⟩ := ih di oj h2
        exact ⟨hoj, d', List.mem_cons_of_mem _ hd', hfind⟩

lemma groupPairs_complete (slots : List (Option Material)) (oi : Nat) (dlist : List Material) :
    ∀ d ∈ dlist, ∀ di, findSlotIdx slots d = some di →
      (di, oi) ∈ groupPairs slots oi dlist := by
  induction dlist with
  | nil => intro d hd; exact absurd hd (List.not_mem_nil _)
  | cons d0 ds ih =>
    intro d hd di hfind
    rw [show groupPairs slots oi (d0 :: ds)
      = (match findSlotIdx slots d0 with
         | none => groupPairs slots oi ds
         | some di' => (di', oi) :: groupPairs slots oi ds) from rfl]
    rcases List.mem_cons.mp hd with heq | hd2
    · subst heq
      rw [hfind]
      exact List.mem_cons_self _ _
    · cases hd0 : findSlotIdx slots d0 with
      | none => exact ih d hd2 di hfind
      | some di' => exact List.mem_cons_of_mem _ (ih d hd2 di hfind)

lemma buildMapping_mem (slots : List (Option Material)) (dups : List (Material × List Material)) :
    ∀ di oi, (di, oi) ∈ buildMapping slots dups →
      ∃ orig dlist d, (orig, dlist) ∈ dups ∧ findSlotIdx slots orig = some oi ∧
        d ∈ dlist ∧ findSlotIdx slots d = some di := by
  induction dups with
  | nil => intro di oi h; exact absurd h (List.not_mem_nil _)
  | cons g r ih =>
    intro di oi h
    rw [show buildMapping slots (g :: r)
      = (match findSlotIdx slots g.1 with
         | none => []
         | some oi' => groupPairs slots oi' g.2) ++ buildMapping slots r from rfl] at h
    rcases List.mem_append.mp h with h2 | h2
    · cases hf : findSlotIdx slots g.1 with
      | none => rw [hf] at h2; exact absurd h2 (List.not_mem_nil _)
      | some oi' =>
        rw [hf] at h2
        obtain ⟨hoj, d, hd, hfind⟩ := groupPairs_mem slots oi' g.2 di oi h2
        subst hoj
        exact ⟨g.1, g.2, d, List.mem_cons_self _ _, hf, hd, hfind⟩
    · obtain ⟨orig, dlist, d, hg, hfo, hd, hfd⟩ := ih di oi h2
      exact ⟨orig, dlist, d, List.mem_cons_of_mem _ hg, hfo, hd, hfd⟩

lemma buildMapping_complete (slots : List (Option Material))
    (dups : List (Material × List Material)) :
    ∀ orig dlist d oi di, (orig, dlist) ∈ dups → d ∈ dlist →
      findSlotIdx slots orig = some oi → findSlotIdx slots d = some di →
      (di, oi) ∈ buildMapping slots dups := by
  induction dups with
  | nil => intro orig dlist d oi di hg; exact absurd hg (List.not_mem_nil _)
  | cons g r ih =>
    intro orig dlist d oi di hg hd hfo hfd
    rw [show buildMapping slots (g :: r)
      = (match findSlotIdx slots g.1 with
         | none => []
         | some oi' => groupPairs slots oi' g.2) ++ buildMapping slots r from rfl]
    rcases List.mem_cons.mp hg with heq | hg2
    · subst heq
      rw [show (orig, dlist).1 = orig from rfl, hfo]
      exact List.mem_append.mpr (Or.inl (groupPairs_complete slots oi dlist d hd di hfd))
    · exact List.mem_append.mpr (Or.inr (ih orig dlist d oi di hg2 hd hfo hfd))

lemma lookupIdx_mem : ∀ (pairs : List (Nat × Nat)) (fi oi : Nat),
    lookupIdx pairs fi = some oi → (fi, oi) ∈ pairs := by
  intro pairs
  induction pairs with
  | nil => intro fi oi h; exact Option.noConfusion h
  | cons p rest ih =>
    intro fi oi h
    rw [show lookupIdx (p :: rest) fi
      = (if p.1 = fi then some p.2 else lookupIdx rest fi) from rfl] at h
    by_cases heq : p.1 = fi
    · rw [if_pos heq] at h
      injection h with h
      subst h
      subst heq
      exact List.mem_cons_self _ _
    · rw [if_neg heq] at h
      exact List.mem_cons_of_mem _ (ih fi oi h)

lemma lookupIdx_none : ∀ (pairs : List (Nat × Nat)) (fi : Nat),
    lookupIdx pairs fi = none → ∀ pr ∈ pairs, pr.1 ≠ fi := by
  intro pairs
  induction pairs with
  | nil => intro fi _ pr hpr; exact absurd hpr (List.not_mem_nil _)
  | cons p rest ih =>
    intro fi h pr hpr
    rw [show lookupIdx (p :: rest) fi
      = (if p.1 = fi then some p.2 else lookupIdx rest fi) from rfl] at h
    by_cases heq : p.1 = fi
    · rw [if_pos heq] at h; exact Option.noConfusion h
    · rw [if_neg heq] at h
      rcases List.mem_cons.mp hpr with heq2 | hpr2
      · subst heq2; exact heq
      · exact ih fi h pr hpr2

lemma mem_filterMap_id {slots : List (Option Material)} {m : Material} :
    m ∈ slots.filterMap id ↔ some m ∈ slots := by
  rw [List.mem_filterMap]
  constructor
  · rintro ⟨a, ha, hid⟩
    have : a = some m := hid
    exact this ▸ ha
  · intro h
    exact ⟨some m, h, rfl⟩

lemma filterMap_somePos (slots : List (Option Material)) :
    ∀ (fi : Nat) (m : Material), slots[fi]? = some (some m) →
      ∃ p : Nat, (slots.filterMap id)[p]? = some m := by
  induction slots with
  | nil => intro fi m h; rw [List.getElem?_nil] at h; exact Option.noConfusion h
  | cons s0 rest ih =>
    intro fi m h
    cases fi with
    | zero =>
      rw [List.getElem?_cons_zero] at h
      injection h with h
      subst h
      exact ⟨0, by rw [show (some m :: rest).filterMap id
        = m :: rest.filterMap id from rfl]; exact List.getElem?_cons_zero⟩
    | succ fi =>
      rw [List.getElem?_cons_succ] at h
      obtain ⟨p, hp⟩ := ih fi m h
      cases s0 with
      | none =>
        exact ⟨p, by rw [show ((none : Option Material) :: rest).filterMap id
          = rest.filterMap id from rfl]; exact hp⟩
      | some a =>
        exact ⟨p + 1, by rw [show (some a :: rest).filterMap id
          = a :: rest.filterMap id from rfl, List.getElem?_cons_succ]; exact hp⟩

lemma two_some_positions (slots : List (Option Material)) :
    ∀ (fi fj : Nat) (m m' : Material), fi < fj →
      slots[fi]? = some (some m) → slots[fj]? = some (some m') →
      ∃ p q : Nat, p < q ∧ (slots.filterMap id)[p]? = some m
        ∧ (slots.filterMap id)[q]? = some m' := by
  induction slots with
  | nil => intro fi fj m m' _ h _; rw [List.getElem?_nil] at h; exact Option.noConfusion h
  | cons s0 rest ih =>
    intro fi fj m m' hij h1 h2
    cases fi with
    | zero =>
      rw [List.getElem?_cons_zero] at h1
      injection h1 with h1
      subst h1
      cases fj with
      | zero => omega
      | succ fj =>
        rw [List.getElem?_cons_succ] at h2
        obtain ⟨q, hq⟩ := filterMap_somePos rest fj m' h2
        refine ⟨0, q + 1, by omega, ?_, ?_⟩
        · rw [show (some m :: rest).filterMap id = m :: rest.filterMap id from rfl]
          exact List.getElem?_cons_zero
        · rw [show (some m :: rest).filterMap id = m :: rest.filterMap id from rfl,
            List.getElem?_cons_succ]
          exact hq
    | succ fi =>
      cases fj with
      | zero => omega
      | succ fj =>
        rw [List.getElem?_cons_succ] at h1 h2
        obtain ⟨p, q, hpq, hp, hq⟩ := ih fi fj m m' (by omega) h1 h2
        cases s0 with
        | none =>
          refine ⟨p, q, hpq, ?_, ?_⟩
          · rw [show ((none : Option Material) :: rest).filterMap id
              = rest.filterMap id from rfl]
            exact hp
          · rw [show ((none : Option Material) :: rest).filterMap id
              = rest.filterMap id from rfl]
            exact hq
        | some a =>
          refine ⟨p + 1, q + 1, by omega, ?_, ?_⟩
          · rw [show (some a :: rest).filterMap id = a :: rest.filterMap id from rfl,
              List.getElem?_cons_succ]
            exact hp
          · rw [show (some a :: rest).filterMap id = a :: rest.filterMap id from rfl,
              List.getElem?_cons_succ]
            exact hq

lemma slot_id_unique (slots : List (Option Material))
    (hnd : ((slots.filterMap id).map (fun m => m.id)).Nodup) :
    ∀ (fi fj : Nat) (m m' : Material), slots[fi]? = some (some m) →
      slots[fj]? = some (some m') → m.id = m'.id → fi = fj := by
  intro fi fj m m' h1 h2 hid
  rcases lt_trichotomy fi fj with h | h | h
  · exfalso
    obtain ⟨p, q, hpq, hp, hq⟩ := two_some_positions slots fi fj m m' h h1 h2
    exact nodup_map_getElem_ne _ _ hnd (by omega : p ≠ q) hp hq hid
  · exact h
  · exfalso
    obtain ⟨p, q, hpq, hp, hq⟩ := two_some_positions slots fj fi m' m h h2 h1
    exact nodup_map_getElem_ne _ _ hnd (by omega : p ≠ q) hp hq hid.symm

lemma processMesh_empty (slots : List (Option Material)) (faces : List Nat)
    (h : slots.isEmpty = true) :
    processMesh slots faces = (slots, faces, 0, false) := by
  simp [processMesh, h]

lemma processMesh_small (slots : List (Option Material)) (faces : List Nat)
    (h : (slots.filterMap id).length < 2) :
    processMesh slots faces = (slots, faces, 0, false) := by
  by_cases h0 : slots.isEmpty
  · simp [processMesh, h0]
  · simp [processMesh, h0, h]

lemma processMesh_no_dups (slots : List (Option Material)) (faces : List Nat)
    (h : (find_duplicate_materials (slots.filterMap id)).isEmpty = true) :
    processMesh slots faces = (slots, faces, 0, false) := by
  by_cases h0 : slots.isEmpty
  · simp [processMesh, h0]
  · by_cases h1 : (slots.filterMap id).length < 2
    · simp [processMesh, h0, h1]
    · simp [processMesh, h0, h1, h]

lemma processMesh_no_pairs (slots : List (Option Material)) (faces : List Nat)
    (h : (buildMapping slots (find_duplicate_materials (slots.filterMap id))).isEmpty = true) :
    processMesh slots faces = (slots, faces, 0, false) := by
  by_cases h0 : slots.isEmpty
  · simp [processMesh, h0]
  · by_cases h1 : (slots.filterMap id).length < 2
    · simp [processMesh, h0, h1]
    · by_cases h2 : (find_duplicate_materials (slots.filterMap id)).isEmpty
      · simp [processMesh, h0, h1, h2]
      · simp [processMesh, h0, h1, h2, h]

lemma processMesh_main (slots : List (Option Material)) (faces : List Nat)
    (h0 : slots.isEmpty = false)
    (h1 : ¬ (slots.filterMap id).length < 2)
    (h2 : (find_duplicate_materials (slots.filterMap id)).isEmpty = false)
    (h3 : (buildMapping slots (find_duplicate_materials (slots.filterMap id))).isEmpty = false) :
    processMesh slots faces =
      ((removeSlots slots
          (faces.map (remapFace (buildMapping slots (find_duplicate_materials (slots.filterMap id)))))
          (sortDesc ((buildMapping slots
            (find_duplicate_materials (slots.filterMap id))).map Prod.fst).dedup)).1,
       (removeSlots slots
          (faces.map (remapFace (buildMapping slots (find_duplicate_materials (slots.filterMap id)))))
          (sortDesc ((buildMapping slots
            (find_duplicate_materials (slots.filterMap id))).map Prod.fst).dedup)).2.1,
       (removeSlots slots
          (faces.map (remapFace (buildMapping slots (find_duplicate_materials (slots.filterMap id)))))
          (sortDesc ((buildMapping slots
            (find_duplicate_materials (slots.filterMap id))).map Prod.fst).dedup)).2.2,
       true) := by
  simp [processMesh, h0, h1, h2, h3]

lemma resolve_congr {slots1 slots2 : List (Option Material)} {fi1 fi2 : Nat}
    (h : slots1[fi1]? = slots2[fi2]?) : resolve slots1 fi1 = resolve slots2 fi2 := by
  rw [resolve, resolve, h]

lemma resolvedEquiv_refl (o : Option Material) : resolvedEquiv o o := by
  cases o with
  | none => trivial
  | some m => exact Or.inl rfl

lemma pairs_spec (slots : List (Option Material))
    (hinj : ∀ m1 m2 : Material, some m1 ∈ slots → some m2 ∈ slots → m1.id = m2.id → m1 = m2) :
    ∀ di oi, (di, oi) ∈ buildMapping slots (find_duplicate_materials (slots.filterMap id)) →
      ∃ orig d, slots[oi]? = some (some orig) ∧ slots[di]? = some (some d) ∧
        compare_material_properties (some orig) (some d) = true ∧
        orig.id ∉ dupIds (find_duplicate_materials (slots.filterMap id)) ∧
        d.id ∈ dupIds (find_duplicate_materials (slots.filterMap id)) := by
  intro di oi hmem
  obtain ⟨orig, dlist, d, hg, hfo, hd, hfd⟩ := buildMapping_mem _ _ di oi hmem
  obtain ⟨so, hso, hsoid⟩ := findSlotIdx_spec slots orig oi hfo
  obtain ⟨sd, hsd, hsdid⟩ := findSlotIdx_spec slots d di hfd
  obtain ⟨horig_mem, _, hds⟩ := findDupsAux_spec _ _ orig dlist hg
  have hd_mem : d ∈ slots.filterMap id := (hds d hd).1
  have hcmp := (hds d hd).2
  have hso_eq : so = orig := hinj so orig (List.getElem?_mem hso)
    (mem_filterMap_id.mp horig_mem) hsoid
  have hsd_eq : sd = d := hinj sd d (List.getElem?_mem hsd)
    (mem_filterMap_id.mp hd_mem) hsdid
  subst hso_eq
  subst hsd_eq
  have hcanon : so.id ∉ dupIds (find_duplicate_materials (slots.filterMap id)) :=
    ((findDupsAux_inv (slots.filterMap id) []).2.2 (so, dlist) hg).1
  have hdid : sd.id ∈ dupIds (find_duplicate_materials (slots.filterMap id)) :=
    dup_id_mem hg hd
  exact ⟨so, sd, hso, hsd, hcmp, hcanon, hdid⟩

lemma key_lt (slots : List (Option Material)) (dups : List (Material × List Material))
    (r : Nat) (hr : r ∈ (buildMapping slots dups).map Prod.fst) : r < slots.length := by
  obtain ⟨pr, hpr, hpr1⟩ := List.mem_map.mp hr
  obtain ⟨orig, dlist, d, _, _, _, hfd⟩ := buildMapping_mem slots dups pr.1 pr.2 hpr
  obtain ⟨s, hs, _⟩ := findSlotIdx_spec slots d pr.1 hfd
  subst hpr1
  exact (List.getElem?_eq_some.mp hs).1

lemma preserves_trivial (slots : List (Option Material)) (faces : List Nat)
    (h : processMesh slots faces = (slots, faces, 0, false)) :
    (processMesh slots faces).2.1.length = faces.length ∧
    ∀ (k fi fi' : Nat), faces[k]? = some fi →
      (processMesh slots faces).2.1[k]? = some fi' →
      resolvedEquiv (resolve slots fi) (resolve (processMesh slots faces).1 fi') := by
  constructor
  · rw [h]
  · intro k fi fi' hk hk'
    rw [h] at hk' ⊢
    have hk2 : faces[k]? = some fi' := hk'
    rw [hk] at hk2
    injection hk2 with hk2
    subst hk2
    exact resolvedEquiv_refl _

lemma processMesh_preserves (slots : List (Option Material)) (faces : List Nat)
    (hinj : ∀ m1 m2 : Material, some m1 ∈ slots → some m2 ∈ slots → m1.id = m2.id → m1 = m2) :
    (processMesh slots faces).2.1.length = faces.length ∧
    ∀ (k fi fi' : Nat), faces[k]? = some fi →
      (processMesh slots faces).2.1[k]? = some fi' →
      resolvedEquiv (resolve slots fi) (resolve (processMesh slots faces).1 fi') := by
  by_cases h0 : slots.isEmpty = true
  · exact preserves_trivial slots faces (processMesh_empty slots faces h0)
  by_cases h1 : (slots.filterMap id).length < 2
  · exact preserves_trivial slots faces (processMesh_small slots faces h1)
  by_cases h2 : (find_duplicate_materials (slots.filterMap id)).isEmpty = true
  · exact preserves_trivial slots faces (processMesh_no_dups slots faces h2)
  by_cases h3 : (buildMapping slots (find_duplicate_materials (slots.filterMap id))).isEmpty = true
  · exact preserves_trivial slots faces (processMesh_no_pairs slots faces h3)
  have hmain := processMesh_main slots faces (Bool.eq_false_iff.mpr h0) h1
    (Bool.eq_false_iff.mpr h2) (Bool.eq_false_iff.mpr h3)
  set pairs := buildMapping slots (find_duplicate_materials (slots.filterMap id)) with hpairs
  set rs := sortDesc (pairs.map Prod.fst).dedup with hrs
  set faces1 := faces.map (remapFace pairs) with hfaces1
  have hpw : rs.Pairwise (fun a b => b < a) := sortDesc_strict (List.nodup_dedup _)
  have hlt : ∀ r ∈ rs, r < slots.length := by
    intro r hr
    rw [hrs, sortDesc_mem, List.mem_dedup] at hr
    exact key_lt slots _ r hr
  have hfaces : (removeSlots slots faces1 rs).2.1 = faces1.map (adjust rs) :=
    removeSlots_faces rs slots faces1 hpw hlt
  rw [hmain]
  constructor
  · show (removeSlots slots faces1 rs).2.1.length = faces.length
    rw [hfaces, hfaces1, List.length_map, List.length_map]
  · intro k fi fi' hk hk'
    have hk2 : (removeSlots slots faces1 rs).2.1[k]? = some fi' := hk'
    rw [hfaces, List.getElem?_map, hfaces1, List.getElem?_map, hk] at hk2
    have hk3 : some (adjust rs (remapFace pairs fi)) = some fi' := hk2
    injection hk3 with hk3
    subst hk3
    show resolvedEquiv (resolve slots fi)
      (resolve (removeSlots slots faces1 rs).1 (adjust rs (remapFace pairs fi)))
    cases hlk : lookupIdx pairs fi with
    | some oi =>
      have hpair := lookupIdx_mem pairs fi oi hlk
      obtain ⟨orig, d, hso, hsd, hcmp, hcanon, hdid⟩ := pairs_spec slots hinj fi oi hpair
      have hgfi : remapFace pairs fi = oi := by rw [remapFace, hlk]
      have hoi_not : oi ∉ rs := by
        intro hmem
        rw [hrs, sortDesc_mem, List.mem_dedup] at hmem
        obtain ⟨pr, hpr, hpr1⟩ := List.mem_map.mp hmem
        obtain ⟨orig2, d2, hso2, hsd2, _, _, hdid2⟩ := pairs_spec slots hinj pr.1 pr.2 hpr
        rw [hpr1, hso] at hsd2
        injection hsd2 with hsd2
        injection hsd2 with hsd2
        rw [← hsd2] at hdid2
        exact hcanon hdid2
      have hget := removeSlots_get rs slots faces1 hpw hlt oi hoi_not
      rw [hgfi]
      rw [show resolve slots fi = some d from by rw [resolve, hsd]]
      rw [show resolve (removeSlots slots faces1 rs).1 (adjust rs oi) = some orig from by
        rw [resolve, hget, hso]]
      exact Or.inr (by rw [compare_comm]; exact hcmp)
    | none =>
      have hgfi : remapFace pairs fi = fi := by rw [remapFace, hlk]
      have hfi_not : fi ∉ rs := by
        intro hmem
        rw [hrs, sortDesc_mem, List.mem_dedup] at hmem
        obtain ⟨pr, hpr, hpr1⟩ := List.mem_map.mp hmem
        exact lookupIdx_none pairs fi hlk pr hpr hpr1
      have hget := removeSlots_get rs slots faces1 hpw hlt fi hfi_not
      rw [hgfi, resolve_congr hget]
      exact resolvedEquiv_refl _

lemma dups_pairs_nonempty (slots : List (Option Material))
    (h : find_duplicate_materials (slots.filterMap id) ≠ []) :
    buildMapping slots (find_duplicate_materials (slots.filterMap id)) ≠ [] := by
  obtain ⟨g, r, hgr⟩ := List.exists_cons_of_ne_nil h
  have hg : (g.1, g.2) ∈ find_duplicate_materials (slots.filterMap id) := by
    rw [hgr]
    exact List.mem_cons_self _ _
  obtain ⟨horig, hne, hds⟩ := findDupsAux_spec _ _ g.1 g.2 hg
  obtain ⟨d, hd⟩ := List.exists_mem_of_ne_nil g.2 hne
  have hdm : d ∈ slots.filterMap id := (hds d hd).1
  obtain ⟨oi, hoi⟩ := Option.isSome_iff_exists.mp
    (findSlotIdx_isSome slots g.1 (mem_filterMap_id.mp horig))
  obtain ⟨di, hdi⟩ := Option.isSome_iff_exists.mp
    (findSlotIdx_isSome slots d (mem_filterMap_id.mp hdm))
  exact List.ne_nil_of_mem (buildMapping_complete slots _ g.1 g.2 d oi di hg hd hoi hdi)

lemma dup_slot_in_keys (slots : List (Option Material))
    (hnd : ((slots.filterMap id).map (fun m => m.id)).Nodup)
    {fi : Nat} {m : Material} (hslot : slots[fi]? = some (some m))
    (hD : m.id ∈ dupIds (find_duplicate_materials (slots.filterMap id))) :
    fi ∈ (buildMapping slots (find_duplicate_materials (slots.filterMap id))).map Prod.fst := by
  obtain ⟨g, hg, d, hd, hdid⟩ := mem_dupIds.mp hD
  have hg2 : (g.1, g.2) ∈ find_duplicate_materials (slots.filterMap id) := hg
  obtain ⟨horig, _, hds⟩ := findDupsAux_spec _ _ g.1 g.2 hg2
  have hdm : d ∈ slots.filterMap id := (hds d hd).1
  obtain ⟨oi, hoi⟩ := Option.isSome_iff_exists.mp
    (findSlotIdx_isSome slots g.1 (mem_filterMap_id.mp horig))
  obtain ⟨di, hdi⟩ := Option.isSome_iff_exists.mp
    (findSlotIdx_isSome slots d (mem_filterMap_id.mp hdm))
  have hmem := buildMapping_complete slots _ g.1 g.2 d oi di hg2 hd hoi hdi
  obtain ⟨sd, hsd, hsdid⟩ := findSlotIdx_spec slots d di hdi
  have hfidi : fi = di :=
    slot_id_unique slots hnd fi di m sd hslot hsd (hsdid.trans hdid).symm
  rw [hfidi]
  exact List.mem_map.mpr ⟨(di, oi), hmem, rfl⟩

lemma slots_remaining_false (slots : List (Option Material))
    (hnd : ((slots.filterMap id).map (fun m => m.id)).Nodup)
    {fi fj : Nat} {m m' : Material} (hij : fi < fj)
    (hi : slots[fi]? = some (some m)) (hj : slots[fj]? = some (some m'))
    (hDi : m.id ∉ dupIds (find_duplicate_materials (slots.filterMap id)))
    (hDj : m'.id ∉ dupIds (find_duplicate_materials (slots.filterMap id))) :
    compare_material_properties (some m) (some m') = false := by
  obtain ⟨p, q, hpq, hp, hq⟩ := two_some_positions slots fi fj m m' hij hi hj
  exact remaining_pairwise_aux (slots.filterMap id) [] p q m m' hnd hp hq hpq
    (List.not_mem_nil _) (List.not_mem_nil _) hDi hDj

lemma slots_remaining_false_ne (slots : List (Option Material))
    (hnd : ((slots.filterMap id).map (fun m => m.id)).Nodup)
    {fi fj : Nat} {m m' : Material} (hij : fi ≠ fj)
    (hi : slots[fi]? = some (some m)) (hj : slots[fj]? = some (some m'))
    (hDi : m.id ∉ dupIds (find_duplicate_materials (slots.filterMap id)))
    (hDj : m'.id ∉ dupIds (find_duplicate_materials (slots.filterMap id))) :
    compare_material_properties (some m) (some m') = false := by
  rcases lt_trichotomy fi fj with h | h | h
  · exact slots_remaining_false slots hnd h hi hj hDi hDj
  · exact absurd h hij
  · rw [compare_comm]
    exact slots_remaining_false slots hnd h hj hi hDj hDi

lemma length_ge_two_of_two_somes (slots : List (Option Material))
    {i j : Nat} {m m' : Material} (hij : i ≠ j)
    (h1 : slots[i]? = some (some m)) (h2 : slots[j]? = some (some m')) :
    2 ≤ (slots.filterMap id).length := by
  rcases lt_trichotomy i j with h | h | h
  · obtain ⟨p, q, hpq, _, hq⟩ := two_some_positions slots i j m m' h h1 h2
    have := (List.getElem?_eq_some.mp hq).1
    omega
  · exact absurd h hij
  · obtain ⟨p, q, hpq, _, hq⟩ := two_some_positions slots j i m' m h h2 h1
    have := (List.getElem?_eq_some.mp hq).1
    omega

lemma distinct_trivial (slots : List (Option Material)) (faces : List Nat)
    (hnd : ((slots.filterMap id).map (fun m => m.id)).Nodup)
    (htriv : processMesh slots faces = (slots, faces, 0, false))
    (hD : dupIds (find_duplicate_materials (slots.filterMap id)) = []) :
    ∀ (i j : Nat) (m m' : Material), i ≠ j →
      (processMesh slots faces).1[i]? = some (some m) →
      (processMesh slots faces).1[j]? = some (some m') →
      compare_material_properties (some m) (some m') = false := by
  intro i j m m' hij h1 h2
  rw [htriv] at h1 h2
  have h1' : slots[i]? = some (some m) := h1
  have h2' : slots[j]? = some (some m') := h2
  refine slots_remaining_false_ne slots hnd hij h1' h2' ?_ ?_ <;>
    (rw [hD]; exact List.not_mem_nil _)

lemma processMesh_distinct (slots : List (Option Material)) (faces : List Nat)
    (hnd : ((slots.filterMap id).map (fun m => m.id)).Nodup) :
    ∀ (i j : Nat) (m m' : Material), i ≠ j →
      (processMesh slots faces).1[i]? = some (some m) →
      (processMesh slots faces).1[j]? = some (some m') →
      compare_material_properties (some m) (some m') = false := by
  by_cases h0 : slots.isEmpty = true
  · intro i j m m' hij h1 h2
    rw [processMesh_empty slots faces h0] at h1
    have h1' : slots[i]? = some (some m) := h1
    rw [List.isEmpty_iff.mp h0, List.getElem?_nil] at h1'
    exact Option.noConfusion h1'
  by_cases h2d : (find_duplicate_materials (slots.filterMap id)).isEmpty = true
  · -- no duplicate groups at all: every early exit or even main is impossible;
    -- here processMesh returns unchanged because buildMapping of [] is []
    have hDnil : dupIds (find_duplicate_materials (slots.filterMap id)) = [] := by
      rw [List.isEmpty_iff.mp h2d]
      rfl
    by_cases h1 : (slots.filterMap id).length < 2
    · intro i j m m' hij hh1 hh2
      rw [processMesh_small slots faces h1] at hh1 hh2
      have hh1' : slots[i]? = some (some m) := hh1
      have hh2' : slots[j]? = some (some m') := hh2
      have := length_ge_two_of_two_somes slots hij hh1' hh2'
      omega
    · exact distinct_trivial slots faces hnd (processMesh_no_dups slots faces h2d) hDnil
  by_cases h1 : (slots.filterMap id).length < 2
  · intro i j m m' hij hh1 hh2
    rw [processMesh_small slots faces h1] at hh1 hh2
    have hh1' : slots[i]? = some (some m) := hh1
    have hh2' : slots[j]? = some (some m') := hh2
    have := length_ge_two_of_two_somes slots hij hh1' hh2'
    omega
  by_cases h3 : (buildMapping slots (find_duplicate_materials (slots.filterMap id))).isEmpty = true
  · exfalso
    have hne : find_duplicate_materials (slots.filterMap id) ≠ [] := by
      intro hnil
      rw [hnil] at h2d
      exact h2d rfl
    exact dups_pairs_nonempty slots hne (List.isEmpty_iff.mp h3)
  have hmain := processMesh_main slots faces (Bool.eq_false_iff.mpr h0) h1
    (Bool.eq_false_iff.mpr h2d) (Bool.eq_false_iff.mpr h3)
  intro i j m m' hij hh1 hh2
  rw [hmain] at hh1 hh2
  set pairs := buildMapping slots (find_duplicate_materials (slots.filterMap id)) with hpairs
  set rs := sortDesc (pairs.map Prod.fst).dedup with hrs
  set faces1 := faces.map (remapFace pairs) with hfaces1
  have hpw : rs.Pairwise (fun a b => b < a) := sortDesc_strict (List.nodup_dedup _)
  have hlt : ∀ r ∈ rs, r < slots.length := by
    intro r hr
    rw [hrs, sortDesc_mem, List.mem_dedup] at hr
    exact key_lt slots _ r hr
  have hh1' : (removeSlots slots faces1 rs).1[i]? = some (some m) := hh1
  have hh2' : (removeSlots slots faces1 rs).1[j]? = some (some m') := hh2
  obtain ⟨fi, hfiR, hfis, hfia⟩ := removeSlots_mem rs slots faces1 i (some m) hpw hlt hh1'
  obtain ⟨fj, hfjR, hfjs, hfja⟩ := removeSlots_mem rs slots faces1 j (some m') hpw hlt hh2'
  have hfij : fi ≠ fj := by
    intro heq
    rw [heq, hfja] at hfia
    exact hij hfia.symm
  have hDi : m.id ∉ dupIds (find_duplicate_materials (slots.filterMap id)) := by
    intro hD
    have := dup_slot_in_keys slots hnd hfis hD
    rw [← List.mem_dedup, ← sortDesc_mem] at this
    exact hfiR this
  have hDj : m'.id ∉ dupIds (find_duplicate_materials (slots.filterMap id)) := by
    intro hD
    have := dup_slot_in_keys slots hnd hfjs hD
    rw [← List.mem_dedup, ← sortDesc_mem] at this
    exact hfjR this
  exact slots_remaining_false_ne slots hnd hfij hfis hfjs hDi hDj

lemma find_dups_triple (A B C : Material)
    (hAB : compare_material_properties (some A) (some B) = true)
    (hAC : compare_material_properties (some A) (some C) = true)
    (hBC : B.id ≠ C.id) :
    find_duplicate_materials [A, B, C] = [(A, [B, C])] := by
  have hcol : collectDups A [B, C] [] = ([B, C], [C.id, B.id]) := by
    rw [collectDups_cons, if_neg (List.not_mem_nil _), if_pos hAB]
    rw [collectDups_cons,
      if_neg (fun hc => hBC.symm (List.mem_singleton.mp hc)), if_pos hAC]
    rfl
  rw [find_duplicate_materials, findDupsAux_cons, if_neg (List.not_mem_nil _), hcol]
  rw [if_neg (show ¬(([B, C] : List Material).isEmpty = true) by simp)]
  rw [findDupsAux_cons, if_pos (by simp : B.id ∈ [A.id, C.id, B.id])]
  rw [findDupsAux_cons, if_pos (by simp : C.id ∈ [A.id, C.id, B.id])]
  rfl

lemma findDups_snd_ne_nil (mats : List Material) :
    ∀ (processed : List Nat) (g : Material × List Material),
      g ∈ findDupsAux mats processed → g.2 ≠ [] := by
  intro processed g hg
  exact (findDupsAux_spec mats processed g.1 g.2 hg).2.1

lemma sameElems_iff {α : Type} [DecidableEq α] {l1 l2 : List α} :
    sameElems l1 l2 = true ↔ ((∀ x ∈ l1, x ∈ l2) ∧ (∀ x ∈ l2, x ∈ l1)) := by
  rw [sameElems, Bool.and_eq_true, decide_eq_true_eq, decide_eq_true_eq]

lemma sameElems_toFinset {α : Type} [DecidableEq α] {l1 l2 : List α}
    (h : sameElems l1 l2 = true) : l1.toFinset = l2.toFinset := by
  obtain ⟨h1, h2⟩ := sameElems_iff.mp h
  apply Finset.ext
  intro x
  simp only [List.mem_toFinset]
  exact ⟨fun hx => h1 x hx, fun hx => h2 x hx⟩

lemma compare_node_trees_links {t1 t2 : NodeTree}
    (h : compare_node_trees (some t1) (some t2) = true) :
    sameElems (linkKeys t1) (linkKeys t2) = true := by
  have he : compare_node_trees (some t1) (some t2) =
      (if t1.nodes.length ≠ t2.nodes.length then false
       else if t1.links.length ≠ t2.links.length then false
       else if hasDupKey t1.nodes || hasDupKey t2.nodes then false
       else if t1.nodes.all (fun n1 =>
           match findByKey t2.nodes (nodeKey n1) with
           | none => false
           | some n2 => compare_node_properties n1 n2) then
         sameElems (linkKeys t1) (linkKeys t2)
       else false) := rfl
  rw [he] at h
  by_cases c1 : t1.nodes.length ≠ t2.nodes.length
  · rw [if_pos c1] at h
    exact Bool.noConfusion h
  rw [if_neg c1] at h
  by_cases c2 : t1.links.length ≠ t2.links.length
  · rw [if_pos c2] at h
    exact Bool.noConfusion h
  rw [if_neg c2] at h
  by_cases c3 : (hasDupKey t1.nodes || hasDupKey t2.nodes) = true
  · rw [if_pos c3] at h
    exact Bool.noConfusion h
  rw [if_neg c3] at h
  by_cases c4 : (t1.nodes.all (fun n1 =>
      match findByKey t2.nodes (nodeKey n1) with
      | none => false
      | some n2 => compare_node_properties n1 n2)) = true
  · rw [if_pos c4] at h
    exact h
  · rw [if_neg c4] at h
    exact Bool.noConfusion h

lemma compare_use_nodes_ne {m1 m2 : Material} (h : m1.use_nodes ≠ m2.use_nodes) :
    compare_material_properties (some m1) (some m2) = false := by
  simp only [compare_material_properties]
  by_cases h1 : m1.id = m2.id
  · rw [if_pos h1]
  · rw [if_neg h1, if_pos h]

lemma compare_true_subcheck {m1 m2 : Material} (h1 : m1.use_nodes = true)
    (h2 : m2.use_nodes = true)
    (h : compare_material_properties (some m1) (some m2) = true) :
    nodeTreeSubCheck m1.node_tree m2.node_tree = true := by
  simp only [compare_material_properties] at h
  by_cases c1 : m1.id = m2.id
  · rw [if_pos c1] at h
    exact Bool.noConfusion h
  rw [if_neg c1] at h
  by_cases c2 : m1.use_nodes ≠ m2.use_nodes
  · rw [if_pos c2] at h
    exact Bool.noConfusion h
  rw [if_neg c2] at h
  by_cases c3 : m1.blend_method ≠ m2.blend_method
  · rw [if_pos c3] at h
    exact Bool.noConfusion h
  rw [if_neg c3] at h
  by_cases c4 : qFar m1.alpha_threshold m2.alpha_threshold = true
  · rw [if_pos c4] at h
    exact Bool.noConfusion h
  rw [if_neg c4] at h
  by_cases c5 : m1.show_transparent_back ≠ m2.show_transparent_back
  · rw [if_pos c5] at h
    exact Bool.noConfusion h
  rw [if_neg c5] at h
  by_cases c6 : m1.use_backface_culling ≠ m2.use_backface_culling
  · rw [if_pos c6] at h
    exact Bool.noConfusion h
  rw [if_neg c6] at h
  by_cases c7 : m1.diffuse_color.length ≠ m2.diffuse_color.length
  · rw [if_pos c7] at h
    exact Bool.noConfusion h
  rw [if_neg c7] at h
  by_cases c8 : colorFar m1.diffuse_color m2.diffuse_color = true
  · rw [if_pos c8] at h
    exact Bool.noConfusion h
  rw [if_neg c8] at h
  by_cases c9 : optBothFar m1.metallic m2.metallic = true
  · rw [if_pos c9] at h
    exact Bool.noConfusion h
  rw [if_neg c9] at h
  by_cases c10 : optBothFar m1.specular m2.specular = true
  · rw [if_pos c10] at h
    exact Bool.noConfusion h
  rw [if_neg c10] at h
  by_cases c11 : presenceMismatch m1.specular m2.specular = true
  · rw [if_pos c11] at h
    exact Bool.noConfusion h
  rw [if_neg c11] at h
  by_cases c12 : optBothFar m1.roughness m2.roughness = true
  · rw [if_pos c12] at h
    exact Bool.noConfusion h
  rw [if_neg c12] at h
  have c13 : (m1.use_nodes && m2.use_nodes) = true := by
    rw [h1, h2]
    rfl
  rw [if_pos c13] at h
  exact h

lemma compare_base_shape (m1 m2 : Material)
    (hid : m1.id ≠ m2.id)
    (hun : m1.use_nodes = false) (hun2 : m2.use_nodes = false)
    (hbm : m1.blend_method = m2.blend_method)
    (hstb : m1.show_transparent_back = m2.show_transparent_back)
    (hubc : m1.use_backface_culling = m2.use_backface_culling)
    (hlen : m1.diffuse_color.length = m2.diffuse_color.length) :
    compare_material_properties (some m1) (some m2) =
      (!(qFar m1.alpha_threshold m2.alpha_threshold) &&
       (!(colorFar m1.diffuse_color m2.diffuse_color) &&
       (!(optBothFar m1.metallic m2.metallic) &&
       (!(optBothFar m1.specular m2.specular) &&
       (!(presenceMismatch m1.specular m2.specular) &&
       (!(optBothFar m1.roughness m2.roughness))))))) := by
  simp only [compare_material_properties]
  rw [if_neg hid,
    if_neg (show ¬(m1.use_nodes ≠ m2.use_nodes) from fun hc => hc (by rw [hun, hun2])),
    if_neg (show ¬(m1.blend_method ≠ m2.blend_method) from fun hc => hc hbm),
    if_neg (show ¬(m1.show_transparent_back ≠ m2.show_transparent_back) from fun hc => hc hstb),
    if_neg (show ¬(m1.use_backface_culling ≠ m2.use_backface_culling) from fun hc => hc hubc),
    if_neg (show ¬(m1.diffuse_color.length ≠ m2.diffuse_color.length) from fun hc => hc hlen),
    if_neg (show ¬((m1.use_nodes && m2.use_nodes) = true) from by rw [hun, hun2]; exact fun hc => Bool.noConfusion hc),
    if_neg (show ¬(m1.use_nodes ≠ m2.use_nodes) from fun hc => hc (by rw [hun, hun2]))]
  cases hqf : qFar m1.alpha_threshold m2.alpha_threshold <;>
    cases hcf : colorFar m1.diffuse_color m2.diffuse_color <;>
    cases hm : optBothFar m1.metallic m2.metallic <;>
    cases hs : optBothFar m1.specular m2.specular <;>
    cases hpm : presenceMismatch m1.specular m2.specular <;>
    cases hr : optBothFar m1.roughness m2.roughness <;>
    simp

lemma bnot_qFar (x y : ℚ) : (!(qFar x y)) = decide (|x - y| ≤ tol) := by
  rw [qFar_eq, ← decide_not, decide_eq_decide]
  exact not_lt

lemma colorFar4 (x y : ℚ) : colorFar [x, 1, 1, 1] [y, 1, 1, 1] = qFar x y := by
  show (qFar x y || (qFar 1 1 || (qFar 1 1 || (qFar 1 1 || false)))) = qFar x y
  rw [show qFar (1 : ℚ) 1 = false from by decide]
  simp

lemma compare_withAlpha (x y : ℚ) :
    compare_material_properties (some (withAlpha 0 x)) (some (withAlpha 1 y))
      = decide (|x - y| ≤ tol) := by
  rw [compare_base_shape (withAlpha 0 x) (withAlpha 1 y)
    (show (0 : Nat) ≠ 1 from by decide) rfl rfl rfl rfl rfl rfl]
  simp only [withAlpha, baseMat]
  rw [show colorFar [(1 : ℚ), 1, 1, 1] [(1 : ℚ), 1, 1, 1] = false from by decide]
  rw [show optBothFar (some (0 : ℚ)) (some (0 : ℚ)) = false from by decide]
  rw [show presenceMismatch (some (0 : ℚ)) (some (0 : ℚ)) = false from rfl]
  rw [bnot_qFar]
  simp

lemma compare_withDiffuse (x y : ℚ) :
    compare_material_properties (some (withDiffuse 0 x)) (some (withDiffuse 1 y))
      = decide (|x - y| ≤ tol) := by
  rw [compare_base_shape (withDiffuse 0 x) (withDiffuse 1 y)
    (show (0 : Nat) ≠ 1 from by decide) rfl rfl rfl rfl rfl rfl]
  simp only [withDiffuse, baseMat]
  rw [show qFar (0 : ℚ) 0 = false from by decide]
  rw [colorFar4]
  rw [show optBothFar (some (0 : ℚ)) (some (0 : ℚ)) = false from by decide]
  rw [show presenceMismatch (some (0 : ℚ)) (some (0 : ℚ)) = false from rfl]
  rw [bnot_qFar]
  simp

lemma compare_withMetallic (x y : ℚ) :
    compare_material_properties (some (withMetallic 0 x)) (some (withMetallic 1 y))
      = decide (|x - y| ≤ tol) := by
  rw [compare_base_shape (withMetallic 0 x) (withMetallic 1 y)
    (show (0 : Nat) ≠ 1 from by decide) rfl rfl rfl rfl rfl rfl]
  simp only [withMetallic, baseMat]
  rw [show qFar (0 : ℚ) 0 = false from by decide]
  rw [show colorFar [(1 : ℚ), 1, 1, 1] [(1 : ℚ), 1, 1, 1] = false from by decide]
  rw [show optBothFar (some x) (some y) = qFar x y from rfl]
  rw [show optBothFar (some (0 : ℚ)) (some (0 : ℚ)) = false from by decide]
  rw [show presenceMismatch (some (0 : ℚ)) (some (0 : ℚ)) = false from rfl]
  rw [bnot_qFar]
  simp

lemma compare_withSpecular (x y : ℚ) :
    compare_material_properties (some (withSpecular 0 x)) (some (withSpecular 1 y))
      = decide (|x - y| ≤ tol) := by
  rw [compare_base_shape (withSpecular 0 x) (withSpecular 1 y)
    (show (0 : Nat) ≠ 1 from by decide) rfl rfl rfl rfl rfl rfl]
  simp only [withSpecular, baseMat]
  rw [show qFar (0 : ℚ) 0 = false from by decide]
  rw [show colorFar [(1 : ℚ), 1, 1, 1] [(1 : ℚ), 1, 1, 1] = false from by decide]
  rw [show optBothFar (some (0 : ℚ)) (some (0 : ℚ)) = false from by decide]
  rw [show optBothFar (some x) (some y) = qFar x y from rfl]
  rw [show presenceMismatch (some x) (some y) = false from rfl]
  rw [bnot_qFar]
  simp

lemma compare_withRoughness (x y : ℚ) :
    compare_material_properties (some (withRoughness 0 x)) (some (withRoughness 1 y))
      = decide (|x - y| ≤ tol) := by
  rw [compare_base_shape (withRoughness 0 x) (withRoughness 1 y)
    (show (0 : Nat) ≠ 1 from by decide) rfl rfl rfl rfl rfl rfl]
  simp only [withRoughness, baseMat]
  rw [show qFar (0 : ℚ) 0 = false from by decide]
  rw [show colorFar [(1 : ℚ), 1, 1, 1] [(1 : ℚ), 1, 1, 1] = false from by decide]
  rw [show optBothFar (some (0 : ℚ)) (some (0 : ℚ)) = false from by decide]
  rw [show presenceMismatch (some (0 : ℚ)) (some (0 : ℚ)) = false from rfl]
  rw [show optBothFar (some x) (some y) = qFar x y from rfl]
  rw [bnot_qFar]
  simp

lemma execute_of_empty : execute [] = (OpResult.CANCELLED, [], 0, 0) := rfl

lemma execute_no_mesh (sel : List SceneObject) (hne : sel ≠ [])
    (h : ∀ o ∈ sel, o.type ≠ "MESH") :
    execute sel = (OpResult.CANCELLED, sel, 0, 0) := by
  rw [execute, if_neg (fun hc => hne (List.isEmpty_iff.mp hc))]
  rw [if_pos (List.isEmpty_iff.mpr (List.filter_eq_nil_iff.mpr
    (fun o ho => by simp only [decide_eq_true_eq]; exact h o ho)))]

/-- Claim C1: for every mesh processed by the remove-duplicate-materials
operation, after the face-index remap and the slot-list compaction every
face resolves to a material visually equivalent to the one it resolved to
before the operation: the same datablock, or a duplicate of it by value.
The hypothesis states the identity model: equal ids denote equal handles. -/
theorem claim_C1 (slots : List (Option Material)) (faces : List Nat)
    (hinj : ∀ m1 m2 : Material, some m1 ∈ slots → some m2 ∈ slots →
      m1.id = m2.id → m1 = m2) :
    (processMesh slots faces).2.1.length = faces.length ∧
    ∀ (k fi fi' : Nat), faces[k]? = some fi →
      (processMesh slots faces).2.1[k]? = some fi' →
      resolvedEquiv (resolve slots fi) (resolve (processMesh slots faces).1 fi') :=
  processMesh_preserves slots faces hinj

/-- Witness for claim C1 on the worked example: slots A, B dup of A, C,
D dup of C, with faces 0 1 2 3 1 3; face 1 pointed at B and afterwards
points at slot 0, resolving to a visually equivalent material. -/
theorem claim_C1_witness :
    resolvedEquiv (resolve slots0 1) (resolve (processMesh slots0 faces0).1 0) :=
  (claim_C1 slots0 faces0 (by
    intro m1 m2 h1 h2 hid
    simp only [slots0, List.mem_cons, List.not_mem_nil, or_false] at h1 h2
    rcases h1 with h1 | h1 | h1 | h1 <;> rcases h2 with h2 | h2 | h2 | h2 <;>
      (injection h1 with h1; injection h2 with h2; subst h1; subst h2) <;>
      first
        | rfl
        | (exfalso; revert hid; decide))).2 1 1 0 (by decide) (by decide)

/-- Counterexample to claim C2 as stated: when the same material object
occupies two slots, only the first-occurrence slot is removed, so the
remaining slot list still holds two entries equal under the comparison. -/
theorem claim_C2_counterexample :
    (processMesh [some mA, some mB, some mB] []).1[0]? = some (some mA) ∧
    (processMesh [some mA, some mB, some mB] []).1[1]? = some (some mB) ∧
    compare_material_properties (some mA) (some mB) = true :=
  ⟨by decide, by decide, by decide⟩

/-- Claim C2 as amended: provided no material occupies more than one slot
of the mesh, the slot list remaining after the operation contains no two
entries that compare equal under compare_material_properties. -/
theorem claim_C2 (slots : List (Option Material)) (faces : List Nat)
    (hnd : ((slots.filterMap id).map (fun m => m.id)).Nodup) :
    ∀ (i j : Nat) (m m' : Material), i ≠ j →
      (processMesh slots faces).1[i]? = some (some m) →
      (processMesh slots faces).1[j]? = some (some m') →
      compare_material_properties (some m) (some m') = false :=
  processMesh_distinct slots faces hnd

/-- Witness for claim C2 on the worked example: the two materials kept
after deduplicating slots A, B, C, D compare as non-duplicates. -/
theorem claim_C2_witness :
    compare_material_properties (some mA) (some mC) = false :=
  claim_C2 slots0 faces0 (by decide) 0 1 mA mC (by decide) (by decide) (by decide)

/-- Claim C3: on three pairwise-equal materials the grouper returns
exactly one class, canonical the first-encountered material, duplicates
in scan order; and in general no entry of the output has an empty
duplicate list, so a material with no duplicate never appears. -/
theorem claim_C3 (A B C : Material)
    (hAB : compare_material_properties (some A) (some B) = true)
    (hAC : compare_material_properties (some A) (some C) = true)
    (hBC : B.id ≠ C.id) :
    find_duplicate_materials [A, B, C] = [(A, [B, C])] ∧
    ∀ (mats : List Material) (g : Material × List Material),
      g ∈ find_duplicate_materials mats → g.2 ≠ [] :=
  ⟨find_dups_triple A B C hAB hAC hBC,
   fun mats g hg => findDups_snd_ne_nil mats [] g hg⟩

/-- Witness for claim C3 on three concrete pairwise-equal materials. -/
theorem claim_C3_witness :
    find_duplicate_materials [baseMat 0, baseMat 1, baseMat 2]
      = [(baseMat 0, [baseMat 1, baseMat 2])] :=
  (claim_C3 (baseMat 0) (baseMat 1) (baseMat 2) (by decide) (by decide) (by decide)).1

/-- Counterexample to claim C4 as stated: two materials whose alpha
thresholds differ by exactly the tolerance are classified as DUPLICATES
by the code, because the test is strict greater-than; the claim says they
must be classified as different. -/
theorem claim_C4_counterexample :
    compare_material_properties (some (withAlpha 10 0)) (some (withAlpha 11 tol)) = true ∧
    |(withAlpha 10 0).alpha_threshold - (withAlpha 11 tol).alpha_threshold| = 1 / 1000 := by
  constructor
  · decide
  · show |(0 : ℚ) - tol| = 1 / 1000
    rw [zero_sub, abs_neg, abs_of_nonneg (by rw [tol_eq]; norm_num), tol_eq]

/-- Claim C4 as amended: for materials identical except one tolerance
compared scalar attribute (alpha threshold, a diffuse component,
metallic, specular or roughness), the comparison classifies them equal
exactly when the difference is at most 0.001; so a difference of exactly
0.001 or of 0.0009 is EQUAL, and only strictly more than 0.001 is
different (the test is strict greater-than). -/
theorem claim_C4 (x y : ℚ) :
    (compare_material_properties (some (withAlpha 0 x)) (some (withAlpha 1 y))
      = decide (|x - y| ≤ 1 / 1000)) ∧
    (compare_material_properties (some (withDiffuse 0 x)) (some (withDiffuse 1 y))
      = decide (|x - y| ≤ 1 / 1000)) ∧
    (compare_material_properties (some (withMetallic 0 x)) (some (withMetallic 1 y))
      = decide (|x - y| ≤ 1 / 1000)) ∧
    (compare_material_properties (some (withSpecular 0 x)) (some (withSpecular 1 y))
      = decide (|x - y| ≤ 1 / 1000)) ∧
    (compare_material_properties (some (withRoughness 0 x)) (some (withRoughness 1 y))
      = decide (|x - y| ≤ 1 / 1000)) := by
  rw [← tol_eq]
  exact ⟨compare_withAlpha x y, compare_withDiffuse x y, compare_withMetallic x y,
    compare_withSpecular x y, compare_withRoughness x y⟩

/-- Counterexample to claim C5 as stated: the link descriptor built by
the code omits the endpoint node NAME, so two trees whose links leave
same-type same-position nodes with different names compare equal even
though the spec-worded descriptor sets, which include the node name,
differ. -/
theorem claim_C5_counterexample :
    compare_node_trees (some cexTree1) (some cexTree2) = true ∧
    (linkDescriptorsSpec cexTree1).toFinset ≠ (linkDescriptorsSpec cexTree2).toFinset :=
  ⟨by decide, by decide⟩

/-- Claim C5 as amended: each link is rendered as (endpoint node type,
endpoint node position, socket name) at both ends, the node display name
not being part of the descriptor, and two graphs compare equal only if
their descriptor sets are equal, order-independent with duplicates
collapsing. -/
theorem claim_C5 (t1 t2 : NodeTree)
    (h : compare_node_trees (some t1) (some t2) = true) :
    (linkKeys t1).toFinset = (linkKeys t2).toFinset :=
  sameElems_toFinset (compare_node_trees_links h)

/-- Witness for claim C5 on the concrete counterexample trees, which do
compare equal and indeed have equal code-descriptor sets. -/
theorem claim_C5_witness :
    (linkKeys cexTree1).toFinset = (linkKeys cexTree2).toFinset :=
  claim_C5 cexTree1 cexTree2 (by decide)

/-- Claim C6: if exactly one material has node shading enabled the
comparison is immediately false; if both have it enabled, any pair that
compares equal passes the simplified node sub-check, which on two present
trees is exactly equality of node count and link count, and on two absent
trees is vacuously true. -/
theorem claim_C6 :
    (∀ m1 m2 : Material, m1.use_nodes ≠ m2.use_nodes →
      compare_material_properties (some m1) (some m2) = false) ∧
    (∀ m1 m2 : Material, m1.use_nodes = true → m2.use_nodes = true →
      compare_material_properties (some m1) (some m2) = true →
      nodeTreeSubCheck m1.node_tree m2.node_tree = true) ∧
    (∀ t1 t2 : NodeTree, nodeTreeSubCheck (some t1) (some t2)
      = (decide (t1.nodes.length = t2.nodes.length)
        && decide (t1.links.length = t2.links.length))) ∧
    nodeTreeSubCheck none none = true :=
  ⟨fun _ _ h => compare_use_nodes_ne h,
   fun _ _ h1 h2 h => compare_true_subcheck h1 h2 h,
   fun _ _ => rfl, rfl⟩

/-- Witness for claim C6: a node-shaded material never equals a
non-node-shaded one. -/
theorem claim_C6_witness :
    compare_material_properties (some mUseNodes) (some mNoNodes) = false :=
  claim_C6.1 mUseNodes mNoNodes (by decide)

/-- Claim C7: the comparison of a material with itself is always false,
and the comparison is false whenever either argument is absent. -/
theorem claim_C7 :
    (∀ m : Material, compare_material_properties (some m) (some m) = false) ∧
    (∀ o : Option Material, compare_material_properties none o = false ∧
      compare_material_properties o none = false) := by
  constructor
  · intro m
    simp only [compare_material_properties]
    rw [if_pos trivial]
  · intro o
    exact ⟨by cases o <;> rfl, by cases o <;> rfl⟩

/-- Claim C8: the material comparison is symmetric in its two arguments,
including in every case where an attribute is present on only one side. -/
theorem claim_C8 (m1 m2 : Option Material) :
    compare_material_properties m1 m2 = compare_material_properties m2 m1 :=
  compare_comm m1 m2

/-- Claim C9: the precondition failures are non-fatal early exits: no
selected objects and no mesh among the selection cancel cleanly leaving
everything unchanged, and a mesh with fewer than two materials, in
particular a single slot, is a no-op with zero slots removed and no
switch into edit mode. -/
theorem claim_C9 :
    (execute [] = (OpResult.CANCELLED, [], 0, 0)) ∧
    (∀ sel : List SceneObject, sel ≠ [] → (∀ o ∈ sel, o.type ≠ "MESH") →
      execute sel = (OpResult.CANCELLED, sel, 0, 0)) ∧
    (∀ (slots : List (Option Material)) (faces : List Nat),
      (slots.filterMap id).length < 2 →
      processMesh slots faces = (slots, faces, 0, false)) :=
  ⟨execute_of_empty, execute_no_mesh,
   fun slots faces h => processMesh_small slots faces h⟩

/-- Witness for claim C9: a mesh with a single material slot is left
untouched, zero slots are removed, and edit mode is never entered. -/
theorem claim_C9_witness :
    processMesh [some mA] [0] = ([some mA], [0], 0, false) :=
  claim_C9.2.2 [some mA] [0] (by decide)

/-- Claim C10: the grouping output has pairwise-disjoint roles: no
material occurs in two duplicate lists or twice in one list, and no
canonical key occurs in any duplicate list. -/
theorem claim_C10 (mats : List Material) :
    (dupIds (find_duplicate_materials mats)).Nodup ∧
    ∀ g ∈ find_duplicate_materials mats,
      g.1.id ∉ dupIds (find_duplicate_materials mats) := by
  obtain ⟨h1, _, h3⟩ := findDupsAux_inv mats []
  exact ⟨h1, fun g hg => (h3 g hg).1⟩

end RDM
